import Mathlib

/-!
Verification of the restaurant inventory and ordering engine
(`database.py` / `app.py`).

The SQLite tables are embedded as Lean lists of records; every public
operation of `database.py` becomes a pure function from a `DBState` to a
new `DBState` together with an explicit outcome.  Python floats are
modelled as exact rationals, and Python's `round(x, 2)` (round half to
even) as `round2` below.  SQL autoincrement ids are modelled by explicit
`next_*_id` counters, and `CURRENT_TIMESTAMP` by the ambient `now` string
carried in the state.  A sqlite3 transaction (`with conn:`) commits all
its writes on normal exit and rolls back on an exception; operations
therefore either return the untouched input state or the fully committed
one.
-/

namespace Resto

/-- Round half to even of a rational, as an integer: the behaviour of
Python's builtin `round` on exact values. -/
def rhe (q : ℚ) : ℤ :=
  let f := ⌊q⌋
  let frac := q - f
  if frac < 1/2 then f
  else if 1/2 < frac then f + 1
  else if f % 2 = 0 then f else f + 1

/-- Python's `round(x, 2)` on exact decimal values. -/
def round2 (q : ℚ) : ℚ := (rhe (100 * q) : ℚ) / 100

/-- `vatRate = 0.21` from `database.py`. -/
def vatRate : ℚ := 21 / 100

/-- `allowed_units = {"g", "pc", "ml"}`. -/
def allowedUnits : List String := ["g", "pc", "ml"]

/-- A row of the `stock_inventory` table. -/
structure Ingredient where
  id : Nat
  ingredient_name : String
  quantity_in_stock : ℚ
  unit : String
deriving DecidableEq, Repr

/-- A row of the `menu_inventory` table. -/
structure Dish where
  id : Nat
  dish_name : String
  dish_price : ℚ
deriving DecidableEq, Repr

/-- A row of the `dish_ingredients` table (the recipe join table). -/
structure DishIngredient where
  menu_id : Nat
  ingredient_id : Nat
  quantity_needed : ℚ
deriving DecidableEq, Repr

/-- A row of the `orders` table. -/
structure Order where
  id : Nat
  order_date : String
  subtotal : ℚ
  vat_rate : ℚ
  vat_amount : ℚ
  total : ℚ
deriving DecidableEq, Repr

/-- A row of the `order_items` table. -/
structure OrderItem where
  order_id : Nat
  dish_id : Nat
  quantity : Int
  line_price : ℚ
deriving DecidableEq, Repr

/-- The whole database.  `next_*_id` model SQLite's autoincrement
counters; `now` models `CURRENT_TIMESTAMP`. -/
structure DBState where
  stock_inventory : List Ingredient
  menu_inventory : List Dish
  dish_ingredients : List DishIngredient
  orders : List Order
  order_items : List OrderItem
  next_ingredient_id : Nat
  next_dish_id : Nat
  next_order_id : Nat
  now : String
deriving DecidableEq, Repr

/-- `SELECT ... FROM menu_inventory WHERE id = ?`. -/
def findDish (st : DBState) (dishId : Nat) : Option Dish :=
  st.menu_inventory.find? (fun d => d.id == dishId)

/-- `SELECT ... FROM stock_inventory WHERE id = ?`. -/
def findIng (st : DBState) (iid : Nat) : Option Ingredient :=
  st.stock_inventory.find? (fun si => si.id == iid)

/-- Python `str.strip()` over the character list: drop leading and
trailing whitespace (an executable model of string trimming). -/
def stripChars (l : List Char) : List Char :=
  ((l.dropWhile Char.isWhitespace).reverse.dropWhile Char.isWhitespace).reverse

/-- Python `(unit or "").strip()`. -/
def strip (s : String) : String := String.mk (stripChars s.toList)

/-- `validate_unit`: strip, then require membership in `allowed_units`. -/
def validate_unit (u : String) : Option String :=
  let s := strip u
  if allowedUnits.contains s then some s else none

/-! ## The Order Engine: `create_order` -/

/-- One line of the basket handed to `create_order`: `{"dish_id": ..,
"qty": ..}` (the quantity is an `int(...)`, hence `Int`). -/
structure BasketLine where
  dish_id : Nat
  qty : Int
deriving DecidableEq, Repr

/-- The failure outcomes of `create_order`; `database.py` formats each of
these into the message of its `return False, ...` (the constructor
arguments are exactly the data interpolated into the f-string). -/
inductive OrderErr where
  | invalidQuantity
  | dishNotFound (id : Nat)
  | emptyRecipe (dish : String)
  | insufficientStock (ingredient : String) (needed : ℚ) (available : ℚ) (unit : String)
deriving DecidableEq, Repr

/-- The first loop of `create_order`: check `qty <= 0`, resolve each dish
and accumulate `subtotal += dish_price * qty`. -/
def validateItems (st : DBState) : ℚ → List BasketLine → Except OrderErr ℚ
  | acc, [] => .ok acc
  | acc, l :: rest =>
    if l.qty ≤ 0 then .error .invalidQuantity
    else
      match findDish st l.dish_id with
      | none => .error (.dishNotFound l.dish_id)
      | some d => validateItems st (acc + d.dish_price * (l.qty : ℚ)) rest

/-- The join `dish_ingredients JOIN stock_inventory ON si.id =
di.ingredient_id WHERE di.menu_id = ?`. -/
def recipeRows (st : DBState) (dishId : Nat) : List (DishIngredient × Ingredient) :=
  st.dish_ingredients.filterMap (fun di =>
    if di.menu_id == dishId then (findIng st di.ingredient_id).map (fun si => (di, si))
    else none)

/-- One value of the Python `needs` dict: name, unit and the stock
snapshot are taken from the first join row for the ingredient, `needed`
accumulates. -/
structure NeedInfo where
  name : String
  unit : String
  needed : ℚ
  stock : ℚ
deriving DecidableEq, Repr

/-- The `needs` dict, as an insertion-ordered association list. -/
abbrev Needs := List (Nat × NeedInfo)

/-- `iid in needs`. -/
def hasKey (ns : Needs) (iid : Nat) : Bool :=
  ns.any (fun e => e.1 == iid)

/-- `needs[iid]["needed"] += tot` (updates the first entry with the key,
like a Python dict update; insertion order is preserved). -/
def bumpNeed : Needs → Nat → ℚ → Needs
  | [], _, _ => []
  | e :: rest, iid, tot =>
    if e.1 == iid then (e.1, { e.2 with needed := e.2.needed + tot }) :: rest
    else e :: bumpNeed rest iid tot

/-- The body of the inner aggregation loop of `create_order` for one join
row `r` of one basket line with quantity `qty`. -/
def addRow (qty : ℚ) (ns : Needs) (r : DishIngredient × Ingredient) : Needs :=
  let tot := r.1.quantity_needed * qty
  if hasKey ns r.1.ingredient_id then bumpNeed ns r.1.ingredient_id tot
  else ns ++ [(r.1.ingredient_id,
    ⟨r.2.ingredient_name, r.2.unit, tot, r.2.quantity_in_stock⟩)]

/-- The second loop of `create_order`: per basket line fetch the recipe
join rows, fail on an empty recipe, and accumulate the `needs` dict. -/
def buildNeeds (st : DBState) : Needs → List BasketLine → Except OrderErr Needs
  | ns, [] => .ok ns
  | ns, l :: rest =>
    let rows := recipeRows st l.dish_id
    if rows.isEmpty then
      .error (.emptyRecipe (((findDish st l.dish_id).map (fun d => d.dish_name)).getD ""))
    else buildNeeds st (rows.foldl (addRow (l.qty : ℚ)) ns) rest

/-- The sufficiency check: the first `needs` entry with
`info["stock"] < info["needed"]`, in insertion order. -/
def findShort (ns : Needs) : Option (Nat × NeedInfo) :=
  ns.find? (fun e => decide (e.2.stock < e.2.needed))

/-- The stock-update loop of the commit: `UPDATE stock_inventory SET
quantity_in_stock = info["stock"] - info["needed"] WHERE id = iid` for
every `needs` entry. -/
def applyNeeds (ns : Needs) (inv : List Ingredient) : List Ingredient :=
  ns.foldl (fun acc e =>
    acc.map (fun si =>
      if si.id == e.1 then { si with quantity_in_stock := e.2.stock - e.2.needed } else si))
    inv

/-- The `with conn:` commit block of `create_order`: insert the order row,
one `order_items` row per basket line, and write the decremented stock
values.  The transaction is atomic: this function is only reached on the
success path and performs all three writes together. -/
def commitOrder (st : DBState) (items : List BasketLine) (subtotal : ℚ) (ns : Needs) :
    DBState × Nat :=
  let oid := st.next_order_id
  let vat := round2 (subtotal * vatRate)
  let tot := round2 (subtotal + vat)
  let newOrder : Order := ⟨oid, st.now, round2 subtotal, vatRate, vat, tot⟩
  let newItems := items.map (fun l =>
    ({ order_id := oid, dish_id := l.dish_id, quantity := l.qty,
       line_price := round2 ((((findDish st l.dish_id).map (fun d => d.dish_price)).getD 0) * (l.qty : ℚ)) } : OrderItem))
  ({ st with
      orders := st.orders ++ [newOrder],
      order_items := st.order_items ++ newItems,
      stock_inventory := applyNeeds ns st.stock_inventory,
      next_order_id := oid + 1 }, oid)

/-- `create_order(items)`: validation, tax computation, demand
aggregation, sufficiency check, then the atomic commit.  Every failure
returns the input state untouched (the early returns precede any write,
and the commit transaction rolls back on an exception). -/
def create_order (st : DBState) (items : List BasketLine) :
    DBState × Except OrderErr Nat :=
  match validateItems st 0 items with
  | .error e => (st, .error e)
  | .ok subtotal =>
    match buildNeeds st [] items with
    | .error e => (st, .error e)
    | .ok ns =>
      match findShort ns with
      | some e => (st, .error (.insufficientStock e.2.name e.2.needed e.2.stock e.2.unit))
      | none =>
        let p := commitOrder st items subtotal ns
        (p.1, .ok p.2)

/-- The raw (pre-rounding) subtotal `Σ price_i × qty_i` of a basket. -/
def rawSubtotal (st : DBState) (items : List BasketLine) : ℚ :=
  (items.map (fun l =>
    (((findDish st l.dish_id).map (fun d => d.dish_price)).getD 0) * (l.qty : ℚ))).sum

/-- The aggregation formula as the specification states it: the needed
quantity of ingredient `iid` is the sum, over all basket lines and all
recipe join rows of the line's dish that reference `iid`, of
`quantity_needed × line quantity`. -/
def aggregatedNeedSpec (st : DBState) (items : List BasketLine) (iid : Nat) : ℚ :=
  (items.map (fun l =>
    (((recipeRows st l.dish_id).filter (fun r => r.1.ingredient_id == iid)).map
      (fun r => r.1.quantity_needed * (l.qty : ℚ))).sum)).sum

/-- Some basket line's dish has a recipe row for ingredient `iid`. -/
def referencesIngredient (st : DBState) (items : List BasketLine) (iid : Nat) : Bool :=
  items.any (fun l => (recipeRows st l.dish_id).any (fun r => r.1.ingredient_id == iid))

/-- `needs.get(iid)`: the first entry of the association list with key
`iid`. -/
def lookupNeed (ns : Needs) (iid : Nat) : Option NeedInfo :=
  (ns.find? (fun e => e.1 == iid)).map (fun e => e.2)

/-- The accumulated `needed` value of ingredient `iid`, if present. -/
def neededAt (ns : Needs) (iid : Nat) : Option ℚ :=
  (lookupNeed ns iid).map (fun v => v.needed)

/-- The contribution of one basket line with quantity `qty` and recipe
join rows `rows` to the aggregated need of ingredient `iid`. -/
def rowContrib (rows : List (DishIngredient × Ingredient)) (iid : Nat) (qty : ℚ) : ℚ :=
  ((rows.filter (fun r => r.1.ingredient_id == iid)).map
    (fun r => r.1.quantity_needed * qty)).sum

/-- A `needs` entry whose name, unit and stock snapshot agree with the
current `stock_inventory` row of its key. -/
def goodEntry (st : DBState) (e : Nat × NeedInfo) : Prop :=
  ∃ si, findIng st e.1 = some si ∧ e.2.name = si.ingredient_name ∧
    e.2.unit = si.unit ∧ e.2.stock = si.quantity_in_stock

/-! ## Dish creation and the ingredient upsert -/

/-- One entry of the `ingredients` list handed to `create_dish` /
`update_dish`: `{"name": .., "qty_needed": .., "unit": ..}`. -/
structure IngSpec where
  name : String
  qty_needed : ℚ
  unit : String
deriving DecidableEq, Repr

/-- `ensure_ingredient_exists(conn, name, unit)`: look up by name; on a
unit conflict return the error (carrying the existing unit, which the
caller interpolates into its message); otherwise auto-vivify the name at
zero stock with the given unit and return its id. -/
def ensure_ingredient_exists (st : DBState) (name unitGiven : String) :
    Except String (DBState × Nat) :=
  match st.stock_inventory.find? (fun si => si.ingredient_name == name) with
  | some row =>
    if row.unit ≠ unitGiven then .error row.unit else .ok (st, row.id)
  | none =>
    let iid := st.next_ingredient_id
    .ok ({ st with
            stock_inventory := st.stock_inventory ++ [⟨iid, name, 0, unitGiven⟩],
            next_ingredient_id := iid + 1 }, iid)

/-- The failure outcomes of `create_dish` (each formatted into the
message of `return False, ...` by the Python code). -/
inductive DishErr where
  | invalidPrice
  | alreadyExists
  | invalidUnit (name : String)
  | invalidQty (name : String)
  | unitMismatch (name existing given : String)
deriving DecidableEq, Repr

/-- The recipe loop of `create_dish`, threading the in-transaction state
`work`; any raised `ValueError` rolls the transaction back, so the error
cases return the pre-transaction state `st0`. -/
def dishLoop (st0 : DBState) (dishId : Nat) (work : DBState) :
    List IngSpec → DBState × Except DishErr Unit
  | [] => (work, .ok ())
  | spec :: rest =>
    match validate_unit spec.unit with
    | none => (st0, .error (.invalidUnit spec.name))
    | some _ =>
      if spec.qty_needed ≤ 0 then (st0, .error (.invalidQty spec.name))
      else
        match ensure_ingredient_exists work spec.name spec.unit with
        | .error existingUnit => (st0, .error (.unitMismatch spec.name existingUnit spec.unit))
        | .ok p =>
          dishLoop st0 dishId
            { p.1 with dish_ingredients := p.1.dish_ingredients ++ [⟨dishId, p.2, spec.qty_needed⟩] }
            rest

/-- `create_dish(dish_name, dish_price, ingredients)`.  Note that the
code passes the *unstripped* `unit` string to `ensure_ingredient_exists`
(it only validates it), which the model mirrors. -/
def create_dish (st : DBState) (name : String) (price : ℚ) (ingredients : List IngSpec) :
    DBState × Except DishErr Unit :=
  if price ≤ 0 then (st, .error .invalidPrice)
  else if st.menu_inventory.any (fun d => d.dish_name == name) then
    (st, .error .alreadyExists)
  else
    let dishId := st.next_dish_id
    dishLoop st dishId
      { st with
          menu_inventory := st.menu_inventory ++ [⟨dishId, name, price⟩],
          next_dish_id := dishId + 1 }
      ingredients

/-! ## Ingredient CRUD and dish update/delete, with exception outcomes

Several of these operations can terminate by an *uncaught* Python
exception; the outcome type distinguishes a normal `return ok, msg` from
an escaping exception.  `update_dish` calls `conn.close()` inside its
`with conn:` block on every early `return`, so the context manager's
commit then raises `sqlite3.ProgrammingError` (the close rolled the open
transaction back, hence the state is unchanged). -/

inductive ExnKind where
  | integrityError
  | programmingError
deriving DecidableEq, Repr

inductive PyResult where
  | ret (ok : Bool) (msg : String)
  | exn (e : ExnKind)
deriving DecidableEq, Repr

/-- `add_ingredient(name, quantity, unit)` (its `IntegrityError` is
caught). -/
def add_ingredient (st : DBState) (name : String) (quantity : ℚ) (unitGiven : String) :
    DBState × PyResult :=
  if quantity ≤ 0 then (st, .ret false "Quantity must be greater than 0")
  else
    match validate_unit unitGiven with
    | none => (st, .ret false "Unit must be one of g, ml, pc")
    | some u =>
      if st.stock_inventory.any (fun si => si.ingredient_name == name) then
        (st, .ret false "Ingredient already exists")
      else
        ({ st with
            stock_inventory := st.stock_inventory ++ [⟨st.next_ingredient_id, name, quantity, u⟩],
            next_ingredient_id := st.next_ingredient_id + 1 },
         .ret true "Ingredient added")

/-- `update_ingredient_by_id`: no try/except around the UPDATE, so
renaming onto an existing ingredient name violates the UNIQUE constraint
and the `IntegrityError` escapes uncaught (the transaction rolls back). -/
def update_ingredient_by_id (st : DBState) (iid : Nat) (name : String) (quantity : ℚ)
    (unitGiven : String) : DBState × PyResult :=
  if quantity ≤ 0 then (st, .ret false "Quantity must be greater than 0")
  else
    match validate_unit unitGiven with
    | none => (st, .ret false "Unit must be one of g, ml, pc")
    | some u =>
      if ¬ st.stock_inventory.any (fun si => si.id == iid) then
        (st, .ret false "Ingredient not found")
      else if st.stock_inventory.any (fun si => si.id ≠ iid ∧ si.ingredient_name = name) then
        (st, .exn .integrityError)
      else
        ({ st with
            stock_inventory := st.stock_inventory.map (fun si =>
              if si.id == iid then { si with ingredient_name := name, quantity_in_stock := quantity, unit := u }
              else si) },
         .ret true "Ingredient updated")

/-- `delete_ingredient_by_id`: `dish_ingredients.ingredient_id` has no ON
DELETE action, so deleting a recipe-referenced ingredient raises an
uncaught FK `IntegrityError`. -/
def delete_ingredient_by_id (st : DBState) (iid : Nat) : DBState × PyResult :=
  if ¬ st.stock_inventory.any (fun si => si.id == iid) then
    (st, .ret false ("Ingredient " ++ toString iid ++ " not found"))
  else if st.dish_ingredients.any (fun di => di.ingredient_id == iid) then
    (st, .exn .integrityError)
  else
    ({ st with stock_inventory := st.stock_inventory.filter (fun si => si.id ≠ iid) },
     .ret true "Ingredient deleted")

/-- `delete_dish`: recipe links cascade, but `order_items.dish_id` has no
ON DELETE action, so deleting a dish referenced by order items raises an
uncaught FK `IntegrityError`. -/
def delete_dish (st : DBState) (dishId : Nat) : DBState × PyResult :=
  if ¬ st.menu_inventory.any (fun d => d.id == dishId) then
    (st, .ret false "Dish not found")
  else if st.order_items.any (fun oi => oi.dish_id == dishId) then
    (st, .exn .integrityError)
  else
    ({ st with
        menu_inventory := st.menu_inventory.filter (fun d => d.id ≠ dishId),
        dish_ingredients := st.dish_ingredients.filter (fun di => di.menu_id ≠ dishId) },
     .ret true "Dish deleted")

/-- The recipe loop of `update_dish`.  Every early `return` inside the
`with conn:` block first closes the connection (rolling back the open
transaction) and then the context manager's commit raises
`ProgrammingError`, which escapes uncaught. -/
def updDishLoop (st0 : DBState) (dishId : Nat) (work : DBState) :
    List IngSpec → DBState × PyResult
  | [] => (work, .ret true "Dish updated")
  | spec :: rest =>
    match validate_unit spec.unit with
    | none => (st0, .exn .programmingError)
    | some _ =>
      if spec.qty_needed ≤ 0 then (st0, .exn .programmingError)
      else
        match ensure_ingredient_exists work spec.name spec.unit with
        | .error _ => (st0, .exn .programmingError)
        | .ok p =>
          updDishLoop st0 dishId
            { p.1 with dish_ingredients := p.1.dish_ingredients ++ [⟨dishId, p.2, spec.qty_needed⟩] }
            rest

/-- `update_dish(dish_id, new_name, new_price, new_ingredients)`.  The
"dish not found" early return is also inside `with conn:` after
`conn.close()`, hence also ends in an uncaught `ProgrammingError`; a
rename onto another dish's name raises an uncaught `IntegrityError`. -/
def update_dish (st : DBState) (dishId : Nat) (new_name : String) (new_price : ℚ)
    (new_ingredients : List IngSpec) : DBState × PyResult :=
  if new_price ≤ 0 then (st, .ret false "Price must be greater than 0")
  else if ¬ st.menu_inventory.any (fun d => d.id == dishId) then
    (st, .exn .programmingError)
  else if st.menu_inventory.any (fun d => d.id ≠ dishId ∧ d.dish_name = new_name) then
    (st, .exn .integrityError)
  else
    updDishLoop st dishId
      { st with
          menu_inventory := st.menu_inventory.map (fun d =>
            if d.id == dishId then { d with dish_name := new_name, dish_price := new_price } else d),
          dish_ingredients := st.dish_ingredients.filter (fun di => di.menu_id ≠ dishId) }
      new_ingredients

/-! ## Low-stock alerts -/

/-- One element of the list returned by `compute_low_stock_alerts`. -/
structure Alert where
  ingredient : String
  stock : ℚ
  unit : String
  threshold : ℚ
deriving DecidableEq, Repr

/-- The join scanned by `compute_low_stock_alerts`: every
`dish_ingredients` row with its ingredient. -/
def alertRows (st : DBState) : List (Ingredient × ℚ) :=
  st.dish_ingredients.filterMap (fun di =>
    (findIng st di.ingredient_id).map (fun si => (si, di.quantity_needed)))

/-- The alert loop: flag a row when `stock < 3 * needed`, deduplicating
by the `(ingredient_name, unit)` key collected in `seen`. -/
def lowStockLoop : List (Ingredient × ℚ) → List (String × String) → List Alert
  | [], _ => []
  | (si, qn) :: rest, seen =>
    if si.quantity_in_stock < 3 * qn then
      if (si.ingredient_name, si.unit) ∈ seen then lowStockLoop rest seen
      else ⟨si.ingredient_name, si.quantity_in_stock, si.unit, 3 * qn⟩ ::
        lowStockLoop rest ((si.ingredient_name, si.unit) :: seen)
    else lowStockLoop rest seen

/-- `compute_low_stock_alerts()`: a read-only scan (it only SELECTs, so
the state is untouched by construction). -/
def compute_low_stock_alerts (st : DBState) : List Alert :=
  lowStockLoop (alertRows st) []

/-! ## The query/filter layer -/

/-- `pat` occurs as a contiguous substring of `hay` (over char lists). -/
def isSubChars (pat : List Char) : List Char → Bool
  | [] => pat.isEmpty
  | c :: t => pat.isPrefixOf (c :: t) || isSubChars pat t

/-- SQLite `LIKE '%pat%'` / Python `pat.lower() in hay.lower()`:
case-insensitive substring containment. -/
def likeContains (hay pat : String) : Bool :=
  isSubChars pat.toLower.toList hay.toLower.toList

/-- `fetch_ingredients(filter_name, filter_quantity, op)`; a `None` or
empty name filter is falsy and skipped, `op = "ge"` selects `>=`,
anything else `<=`. -/
def fetch_ingredients (st : DBState) (filter_name : Option String)
    (filter_quantity : Option ℚ) (op : String) : List Ingredient :=
  st.stock_inventory.filter (fun si =>
    (match filter_name with
     | none => true
     | some s => if s = "" then true else likeContains si.ingredient_name s) &&
    (match filter_quantity with
     | none => true
     | some q => if op = "ge" then decide (q ≤ si.quantity_in_stock)
                 else decide (si.quantity_in_stock ≤ q)))

/-- `fetch_menu(filter_name, filter_price, price_op)`; `price_op = "le"`
selects `<=`, anything else `>=`. -/
def fetch_menu (st : DBState) (filter_name : Option String)
    (filter_price : Option ℚ) (price_op : String) : List Dish :=
  st.menu_inventory.filter (fun d =>
    (match filter_name with
     | none => true
     | some s => if s = "" then true else likeContains d.dish_name s) &&
    (match filter_price with
     | none => true
     | some p => if price_op = "le" then decide (d.dish_price ≤ p)
                 else decide (p ≤ d.dish_price)))

/-! ## Orders listing and CSV export -/

/-- One row of the per-order item join in `fetch_orders`. -/
structure ItemView where
  quantity : Int
  line_price : ℚ
  dish_name : String
deriving DecidableEq, Repr

/-- One element of the `fetch_orders` result (`{"order": .., "items": ..}`;
`order_date_display` is stored inside the order dict by the code and is a
separate field here). -/
structure OrderView where
  order : Order
  order_date_display : String
  items : List ItemView
deriving DecidableEq, Repr

/-- The item join of one order: `order_items JOIN menu_inventory`. -/
def orderItemsView (st : DBState) (oid : Nat) : List ItemView :=
  st.order_items.filterMap (fun oi =>
    if oi.order_id == oid then
      (findDish st oi.dish_id).map (fun d => ⟨oi.quantity, oi.line_price, d.dish_name⟩)
    else none)

/-- SQLite `date(X)` on the `'YYYY-MM-DD HH:MM:SS'` strings stored by
`CURRENT_TIMESTAMP`: the first ten characters. -/
def dateOnly (s : String) : String := s.take 10

/-- String `<=` (ISO dates compare correctly lexicographically). -/
def dateLeB (a b : String) : Bool := a == b || decide (a < b)

/-- Ten characters shaped like `YYYY-MM-DD`. -/
def isIsoDate (s : String) : Bool :=
  match s.toList with
  | [y1, y2, y3, y4, h1, m1, m2, h2, d1, d2] =>
    y1.isDigit && y2.isDigit && y3.isDigit && y4.isDigit && (h1 == '-') &&
    m1.isDigit && m2.isDigit && (h2 == '-') && d1.isDigit && d2.isDigit
  | _ => false

/-- The display-date computation of `fetch_orders`: an ISO timestamp is
reformatted to `YYYY-MM-DD` (its first ten characters); an unparseable
string is passed through unchanged. -/
def dateDisplay (raw : String) : String :=
  if isIsoDate (dateOnly raw) then dateOnly raw else raw

/-- `fetch_orders(filter_name, start_date, end_date)`.  The SQL `ORDER BY
order_date DESC` only permutes the rows and is not modelled; the date
bounds compare calendar dates, and the dish-name filter is applied
per order after loading its items (a falsy filter is skipped). -/
def fetch_orders (st : DBState) (filter_name : Option String)
    (start_date end_date : Option String) : List OrderView :=
  (st.orders.filter (fun o =>
    (match start_date with
     | none => true
     | some sd => if sd = "" then true else dateLeB (dateOnly sd) (dateOnly o.order_date)) &&
    (match end_date with
     | none => true
     | some ed => if ed = "" then true else dateLeB (dateOnly o.order_date) (dateOnly ed)))).filterMap
    (fun o =>
      let items := orderItemsView st o.id
      match filter_name with
      | some nm =>
        if nm ≠ "" ∧ ¬ (items.any (fun it => likeContains it.dish_name nm)) then none
        else some ⟨o, dateDisplay o.order_date, items⟩
      | none => some ⟨o, dateDisplay o.order_date, items⟩)

/-- One data row of `/export/orders.csv`. -/
structure CsvRow where
  order_id : Nat
  order_date : String
  dish_name : String
  qty : Int
  line_price : ℚ
  subtotal : ℚ
  vat_rate : ℚ
  vat_amount : ℚ
  total : ℚ
deriving DecidableEq, Repr

/-- `export_orders_csv` of `app.py`: `fetch_orders()` with no filters,
one CSV row per item of each order, order-level columns repeated. -/
def export_orders_csv (st : DBState) : List CsvRow :=
  ((fetch_orders st none none none).map (fun ov =>
    ov.items.map (fun it =>
      ({ order_id := ov.order.id, order_date := ov.order_date_display,
         dish_name := it.dish_name, qty := it.quantity, line_price := it.line_price,
         subtotal := ov.order.subtotal, vat_rate := ov.order.vat_rate,
         vat_amount := ov.order.vat_amount, total := ov.order.total } : CsvRow)))).flatten

/-- The CSV row `export_orders_csv` writes for the order item `oi` of
order `o` (the shape of one `writer.writerow` call). -/
def renderRow (st : DBState) (o : Order) (oi : OrderItem) : CsvRow :=
  { order_id := o.id, order_date := dateDisplay o.order_date,
    dish_name := (((findDish st oi.dish_id).map (fun d => d.dish_name)).getD ""),
    qty := oi.quantity, line_price := oi.line_price,
    subtotal := o.subtotal, vat_rate := o.vat_rate,
    vat_amount := o.vat_amount, total := o.total }

/-! ## Concrete states used by counterexamples and witnesses -/

/-- One dish priced 1.365 whose one-line recipe needs 1 g of an
ingredient with ample stock. -/
def stPlate : DBState :=
  { stock_inventory := [⟨1, "Flour", 10, "g"⟩],
    menu_inventory := [⟨1, "Plate", 1365/1000⟩],
    dish_ingredients := [⟨1, 1, 1⟩],
    orders := [], order_items := [],
    next_ingredient_id := 2, next_dish_id := 2, next_order_id := 1,
    now := "2026-01-01 00:00:00" }

/-- One dish priced 2 whose recipe needs 5 g of an ingredient with only
3 g in stock. -/
def stShort : DBState :=
  { stock_inventory := [⟨1, "Flour", 3, "g"⟩],
    menu_inventory := [⟨1, "Cake", 2⟩],
    dish_ingredients := [⟨1, 1, 5⟩],
    orders := [], order_items := [],
    next_ingredient_id := 2, next_dish_id := 2, next_order_id := 1,
    now := "2026-01-01 00:00:00" }

/-- One ingredient Flour in grams, no dishes. -/
def stFlour : DBState :=
  { stock_inventory := [⟨1, "Flour", 7, "g"⟩],
    menu_inventory := [], dish_ingredients := [], orders := [], order_items := [],
    next_ingredient_id := 2, next_dish_id := 1, next_order_id := 1,
    now := "2026-01-01 00:00:00" }

/-- Flour in grams plus an existing dish named Cake. -/
def stCakeFlour : DBState :=
  { stock_inventory := [⟨1, "Flour", 7, "g"⟩],
    menu_inventory := [⟨1, "Cake", 4⟩],
    dish_ingredients := [], orders := [], order_items := [],
    next_ingredient_id := 2, next_dish_id := 2, next_order_id := 1,
    now := "2026-01-01 00:00:00" }

/-- Two ingredients with distinct names (rename target exists). -/
def stTwoIngs : DBState :=
  { stock_inventory := [⟨1, "Salt", 5, "g"⟩, ⟨2, "Pepper", 5, "g"⟩],
    menu_inventory := [], dish_ingredients := [], orders := [], order_items := [],
    next_ingredient_id := 3, next_dish_id := 1, next_order_id := 1,
    now := "2026-01-01 00:00:00" }

/-- A dish that appears in an existing order's items. -/
def stDishOrdered : DBState :=
  { stock_inventory := [⟨1, "Flour", 5, "g"⟩],
    menu_inventory := [⟨1, "Cake", 4⟩],
    dish_ingredients := [⟨1, 1, 1⟩],
    orders := [⟨1, "2026-01-01 00:00:00", 4, 21/100, 84/100, 484/100⟩],
    order_items := [⟨1, 1, 1, 4⟩],
    next_ingredient_id := 2, next_dish_id := 2, next_order_id := 2,
    now := "2026-01-01 00:00:00" }

/-! ## Theorems -/

theorem round2_zero : round2 0 = 0 := by
  norm_num [round2, rhe]

/-- Inversion of the validation loop on success: the returned subtotal is
the accumulator plus the raw `Σ price × qty`, every line has a positive
quantity, and every dish resolves. -/
theorem validateItems_ok_inv (st : DBState) (items : List BasketLine) (acc s : ℚ)
    (h : validateItems st acc items = .ok s) :
    s = acc + rawSubtotal st items ∧
      ∀ l ∈ items, 0 < l.qty ∧ (findDish st l.dish_id).isSome := by
  induction items generalizing acc with
  | nil =>
    simp only [validateItems, Except.ok.injEq] at h
    simp [← h, rawSubtotal]
  | cons l rest ih =>
    rw [validateItems] at h
    by_cases hq : l.qty ≤ 0
    · simp [hq] at h
    · simp only [hq, if_false] at h
      cases hd : findDish st l.dish_id with
      | none => rw [hd] at h; exact absurd h (by simp)
      | some d =>
        rw [hd] at h
        obtain ⟨hs, hrest⟩ := ih _ h
        refine ⟨?_, ?_⟩
        · rw [hs]
          simp only [rawSubtotal, List.map_cons, List.sum_cons, hd, Option.map_some',
            Option.getD_some]
          ring
        · intro x hx
          rcases List.mem_cons.mp hx with hx | hx
          · subst hx
            exact ⟨not_le.mp hq, by simp [hd]⟩
          · exact hrest x hx

/-- Inversion of `create_order` on an error: the state is returned
untouched (all failure returns precede any write). -/
theorem create_order_error_inv (st : DBState) (items : List BasketLine) (st' : DBState)
    (e : OrderErr) (h : create_order st items = (st', .error e)) : st' = st := by
  unfold create_order at h
  cases hv : validateItems st 0 items with
  | error e1 => rw [hv] at h; injection h with h1 h2; exact h1.symm
  | ok s =>
    rw [hv] at h; dsimp only at h
    cases hb : buildNeeds st [] items with
    | error e2 => rw [hb] at h; injection h with h1 h2; exact h1.symm
    | ok ns =>
      rw [hb] at h; dsimp only at h
      cases hf : findShort ns with
      | some w => rw [hf] at h; injection h with h1 h2; exact h1.symm
      | none => rw [hf] at h; injection h with h1 h2; cases h2

/-- Inversion of `create_order` on success: the validation, aggregation
and sufficiency stages all passed and the commit produced the result. -/
theorem create_order_ok_inv (st : DBState) (items : List BasketLine) (st' : DBState)
    (oid : Nat) (h : create_order st items = (st', .ok oid)) :
    ∃ s ns, validateItems st 0 items = .ok s ∧ buildNeeds st [] items = .ok ns ∧
      findShort ns = none ∧ commitOrder st items s ns = (st', oid) := by
  unfold create_order at h
  cases hv : validateItems st 0 items with
  | error e1 => rw [hv] at h; injection h with h1 h2; cases h2
  | ok s =>
    rw [hv] at h; dsimp only at h
    cases hb : buildNeeds st [] items with
    | error e2 => rw [hb] at h; injection h with h1 h2; cases h2
    | ok ns =>
      rw [hb] at h; dsimp only at h
      cases hf : findShort ns with
      | some w => rw [hf] at h; injection h with h1 h2; cases h2
      | none =>
        rw [hf] at h; dsimp only at h
        injection h with h1 h2
        injection h2 with h3
        exact ⟨s, ns, rfl, rfl, hf, Prod.ext h1 h3⟩

/-- C4: the code does NOT reject the empty basket.  For every state,
`create_order []` succeeds, returning the fresh order id, and commits an
order row with subtotal 0, vat 0, total 0 and no order items — the
validation loops are vacuous, so the engine falls through to the commit.
This contradicts the claim, which requires a failure outcome with nothing
persisted. -/
theorem create_order_accepts_empty_basket (st : DBState) :
    create_order st [] =
      ({ st with
          orders := st.orders ++ [⟨st.next_order_id, st.now, 0, vatRate, 0, 0⟩],
          next_order_id := st.next_order_id + 1 },
       .ok st.next_order_id) := by
  simp [create_order, validateItems, buildNeeds, findShort, commitOrder, applyNeeds,
    round2_zero]

/-- C3 counterexample: with one dish priced 1.365 and the basket
`[(dish 1, qty 1)]` the order commits with total 1.66 (= 83/50), while
the claimed identity `total == round(round(subtotal,2) +
round(subtotal*0.21,2), 2)` yields 1.65 (= 33/20): the code adds the vat
to the *unrounded* subtotal 1.365, not to the stored rounded subtotal
1.36.  Python float arithmetic produces exactly these two values at this
input. -/
theorem create_order_total_breaks_claim_formula :
    (create_order stPlate [⟨1, 1⟩]).2 = .ok 1 ∧
    ((create_order stPlate [⟨1, 1⟩]).1.orders.map (fun o => o.total)) = [83/50] ∧
    ((create_order stPlate [⟨1, 1⟩]).1.orders.map (fun o => o.subtotal)) = [34/25] ∧
    round2 (round2 (rawSubtotal stPlate [⟨1, 1⟩]) +
      round2 (rawSubtotal stPlate [⟨1, 1⟩] * vatRate)) = 33/20 ∧
    (83/50 : ℚ) ≠ 33/20 := by
  refine ⟨?_, ?_, ?_, ?_, by norm_num⟩ <;>
    norm_num [create_order, validateItems, buildNeeds, findShort, commitOrder, recipeRows,
      findDish, findIng, addRow, hasKey, bumpNeed, round2, rhe, vatRate, stPlate,
      rawSubtotal, List.find?, List.filterMap, List.foldl]

/-- C3 (amended): on every successful `create_order` the committed order
row carries `subtotal = round(Σ price×qty, 2)`, `vatAmount =
round(rawSubtotal × 0.21, 2)` and `total = round(rawSubtotal +
vatAmount, 2)` — the same half-to-even rounding applied everywhere — and
whenever the raw subtotal is already a whole number of cents this total
coincides with the claimed `round(round(subtotal,2) +
round(subtotal×taxRate,2), 2)`. -/
theorem create_order_money_fields (st : DBState) (items : List BasketLine)
    (st' : DBState) (oid : Nat) (h : create_order st items = (st', .ok oid)) :
    st'.orders = st.orders ++
      [⟨oid, st.now, round2 (rawSubtotal st items), vatRate,
        round2 (rawSubtotal st items * vatRate),
        round2 (rawSubtotal st items + round2 (rawSubtotal st items * vatRate))⟩] ∧
    (round2 (rawSubtotal st items) = rawSubtotal st items →
      round2 (rawSubtotal st items + round2 (rawSubtotal st items * vatRate)) =
        round2 (round2 (rawSubtotal st items) + round2 (rawSubtotal st items * vatRate))) := by
  obtain ⟨s, ns, hv, hb, hf, hc⟩ := create_order_ok_inv st items st' oid h
  obtain ⟨hs, -⟩ := validateItems_ok_inv st items 0 s hv
  have hs' : s = rawSubtotal st items := by rw [hs]; ring
  subst hs'
  constructor
  · have h1 : st' = (commitOrder st items (rawSubtotal st items) ns).1 := by rw [hc]
    have h2 : oid = (commitOrder st items (rawSubtotal st items) ns).2 := by rw [hc]
    rw [h1, h2]
    simp [commitOrder]
  · intro he
    rw [he]

/-- Witness for `create_order_money_fields` at the concrete state
`stPlate` and basket `[(1, 1)]`. -/
theorem create_order_money_fields_witness :
    create_order stPlate [⟨1, 1⟩] = ((create_order stPlate [⟨1, 1⟩]).1, .ok 1) ∧
    ((create_order stPlate [⟨1, 1⟩]).1.orders = stPlate.orders ++
      [⟨1, stPlate.now, round2 (rawSubtotal stPlate [⟨1, 1⟩]), vatRate,
        round2 (rawSubtotal stPlate [⟨1, 1⟩] * vatRate),
        round2 (rawSubtotal stPlate [⟨1, 1⟩] + round2 (rawSubtotal stPlate [⟨1, 1⟩] * vatRate))⟩] ∧
    (round2 (rawSubtotal stPlate [⟨1, 1⟩]) = rawSubtotal stPlate [⟨1, 1⟩] →
      round2 (rawSubtotal stPlate [⟨1, 1⟩] + round2 (rawSubtotal stPlate [⟨1, 1⟩] * vatRate)) =
        round2 (round2 (rawSubtotal stPlate [⟨1, 1⟩]) + round2 (rawSubtotal stPlate [⟨1, 1⟩] * vatRate)))) := by
  have hp2 : (create_order stPlate [⟨1, 1⟩]).2 = .ok 1 := by
    norm_num [create_order, validateItems, buildNeeds, findShort, commitOrder, recipeRows,
      findDish, findIng, addRow, hasKey, bumpNeed, round2, rhe, vatRate, stPlate,
      List.find?, List.filterMap, List.foldl]
  have hH : create_order stPlate [⟨1, 1⟩] = ((create_order stPlate [⟨1, 1⟩]).1, .ok 1) := by
    rw [← hp2]
  exact ⟨hH, create_order_money_fields stPlate [⟨1, 1⟩] _ 1 hH⟩

/-! ### The `needs` dict: lookup laws for `bumpNeed`, `addRow`, `buildNeeds` -/

theorem hasKey_iff_lookup (ns : Needs) (iid : Nat) :
    hasKey ns iid = true ↔ (lookupNeed ns iid).isSome := by
  simp [hasKey, lookupNeed, List.any_eq_true, List.find?_isSome]

theorem lookupNeed_bumpNeed (ns : Needs) (iid : Nat) (tot : ℚ) (j : Nat) :
    lookupNeed (bumpNeed ns iid tot) j =
      if j = iid then (lookupNeed ns j).map (fun v => { v with needed := v.needed + tot })
      else lookupNeed ns j := by
  induction ns with
  | nil => by_cases hj : j = iid <;> simp [bumpNeed, lookupNeed, hj]
  | cons e rest ih =>
    by_cases he : e.1 = iid
    · have hbe : (e.1 == iid) = true := by simp [he]
      by_cases hj : j = iid
      · have hbj : (e.1 == j) = true := by simp [he, hj]
        simp [bumpNeed, lookupNeed, hbe, hbj, hj, List.find?_cons]
      · have hbj : (e.1 == j) = false := by
          simp only [beq_eq_false_iff_ne]
          exact fun hc => hj (by rw [← hc, he])
        simp [bumpNeed, lookupNeed, hbe, hbj, hj, List.find?_cons]
    · have hbe : (e.1 == iid) = false := by simp [he]
      by_cases hej : e.1 = j
      · have hj : ¬ (j = iid) := fun hc => he (by rw [hej, hc])
        have hbj : (e.1 == j) = true := by simp [hej]
        simp [bumpNeed, lookupNeed, hbe, hbj, hj, List.find?_cons]
      · have hbj : (e.1 == j) = false := by simp [hej]
        have ih' := ih
        simp only [lookupNeed] at ih'
        simp [bumpNeed, lookupNeed, hbe, hbj, List.find?_cons, ih']

theorem lookupNeed_append_single (ns : Needs) (k : Nat) (v : NeedInfo) (j : Nat) :
    lookupNeed (ns ++ [(k, v)]) j =
      ((lookupNeed ns j).orElse (fun _ => if j = k then some v else none)) := by
  simp only [lookupNeed, List.find?_append]
  by_cases hj : j = k
  · subst hj
    cases h2 : ns.find? (fun e => e.1 == j) <;>
      simp [h2, Option.orElse, List.find?_cons, List.find?_nil]
  · have h3 : (k == j) = false := by
      simp only [beq_eq_false_iff_ne]
      exact fun hc => hj hc.symm
    cases h2 : ns.find? (fun e => e.1 == j) <;>
      simp [h2, Option.orElse, List.find?_cons, List.find?_nil, h3, hj]

theorem lookupNeed_addRow_ne (qty : ℚ) (ns : Needs) (r : DishIngredient × Ingredient)
    (j : Nat) (h : j ≠ r.1.ingredient_id) :
    lookupNeed (addRow qty ns r) j = lookupNeed ns j := by
  unfold addRow
  by_cases hk : hasKey ns r.1.ingredient_id
  · simp [hk, lookupNeed_bumpNeed, h]
  · simp only [hk, if_false, Bool.false_eq_true]
    rw [lookupNeed_append_single]
    cases h2 : lookupNeed ns j <;> simp [Option.orElse, h, h2]

theorem neededAt_addRow_self_some (qty : ℚ) (ns : Needs) (r : DishIngredient × Ingredient)
    (x : ℚ) (h : neededAt ns r.1.ingredient_id = some x) :
    neededAt (addRow qty ns r) r.1.ingredient_id = some (x + r.1.quantity_needed * qty) := by
  have hsome : (lookupNeed ns r.1.ingredient_id).isSome := by
    unfold neededAt at h
    cases hl : lookupNeed ns r.1.ingredient_id <;> simp [hl] at h ⊢
  have hk : hasKey ns r.1.ingredient_id = true := (hasKey_iff_lookup ns _).mpr hsome
  unfold addRow
  simp only [hk, if_true]
  unfold neededAt at h ⊢
  rw [lookupNeed_bumpNeed]
  simp only [if_pos rfl]
  cases hl : lookupNeed ns r.1.ingredient_id with
  | none => simp [hl] at h
  | some v =>
    simp only [hl, Option.map_some'] at h ⊢
    injection h with h
    simp [← h]

theorem lookupNeed_addRow_self_none (qty : ℚ) (ns : Needs) (r : DishIngredient × Ingredient)
    (h : lookupNeed ns r.1.ingredient_id = none) :
    lookupNeed (addRow qty ns r) r.1.ingredient_id =
      some ⟨r.2.ingredient_name, r.2.unit, r.1.quantity_needed * qty, r.2.quantity_in_stock⟩ := by
  have hk : hasKey ns r.1.ingredient_id = false := by
    cases hh : hasKey ns r.1.ingredient_id
    · rfl
    · exact absurd ((hasKey_iff_lookup ns _).mp hh) (by simp [h])
  unfold addRow
  simp only [hk, Bool.false_eq_true, if_false]
  rw [lookupNeed_append_single]
  simp [h, Option.orElse]

theorem rowContrib_nil (iid : Nat) (qty : ℚ) : rowContrib [] iid qty = 0 := rfl

theorem rowContrib_cons_pos (r : DishIngredient × Ingredient)
    (rows : List (DishIngredient × Ingredient)) (iid : Nat) (qty : ℚ)
    (h : (r.1.ingredient_id == iid) = true) :
    rowContrib (r :: rows) iid qty = r.1.quantity_needed * qty + rowContrib rows iid qty := by
  simp [rowContrib, List.filter_cons, h]

theorem rowContrib_cons_neg (r : DishIngredient × Ingredient)
    (rows : List (DishIngredient × Ingredient)) (iid : Nat) (qty : ℚ)
    (h : (r.1.ingredient_id == iid) = false) :
    rowContrib (r :: rows) iid qty = rowContrib rows iid qty := by
  simp [rowContrib, List.filter_cons, h]

theorem rowContrib_of_not_any (rows : List (DishIngredient × Ingredient)) (iid : Nat)
    (qty : ℚ) (h : rows.any (fun r => r.1.ingredient_id == iid) = false) :
    rowContrib rows iid qty = 0 := by
  induction rows with
  | nil => rfl
  | cons r rest ih =>
    simp only [List.any_cons, Bool.or_eq_false_iff] at h
    rw [rowContrib_cons_neg r rest iid qty h.1, ih h.2]

theorem neededAt_foldl_some (rows : List (DishIngredient × Ingredient)) (qty : ℚ)
    (ns : Needs) (iid : Nat) (x : ℚ) (h : neededAt ns iid = some x) :
    neededAt (rows.foldl (addRow qty) ns) iid = some (x + rowContrib rows iid qty) := by
  induction rows generalizing ns x with
  | nil => simpa [rowContrib] using h
  | cons r rest ih =>
    simp only [List.foldl_cons]
    by_cases hr : iid = r.1.ingredient_id
    · have hb : (r.1.ingredient_id == iid) = true := by simp [hr]
      have h2 : neededAt (addRow qty ns r) iid = some (x + r.1.quantity_needed * qty) := by
        rw [hr] at h ⊢
        exact neededAt_addRow_self_some qty ns r x h
      rw [ih _ _ h2, rowContrib_cons_pos r rest iid qty hb]
      congr 1
      ring
    · have hb : (r.1.ingredient_id == iid) = false := by
        simp only [beq_eq_false_iff_ne]
        exact fun hc => hr hc.symm
      have h2 : neededAt (addRow qty ns r) iid = some x := by
        unfold neededAt
        rw [lookupNeed_addRow_ne qty ns r iid hr]
        exact h
      rw [ih _ _ h2, rowContrib_cons_neg r rest iid qty hb]

theorem neededAt_foldl_none (rows : List (DishIngredient × Ingredient)) (qty : ℚ)
    (ns : Needs) (iid : Nat) (h : neededAt ns iid = none) :
    neededAt (rows.foldl (addRow qty) ns) iid =
      if rows.any (fun r => r.1.ingredient_id == iid) then some (rowContrib rows iid qty)
      else none := by
  induction rows generalizing ns with
  | nil => simpa using h
  | cons r rest ih =>
    simp only [List.foldl_cons, List.any_cons]
    have hln : lookupNeed ns iid = none := by
      unfold neededAt at h
      cases hl : lookupNeed ns iid
      · rfl
      · rw [hl] at h; cases h
    by_cases hr : r.1.ingredient_id = iid
    · have hb : (r.1.ingredient_id == iid) = true := by simp [hr]
      have h2 : neededAt (addRow qty ns r) iid = some (r.1.quantity_needed * qty) := by
        unfold neededAt
        rw [← hr]
        rw [lookupNeed_addRow_self_none qty ns r (by rw [hr]; exact hln)]
        rfl
      rw [neededAt_foldl_some rest qty _ iid _ h2]
      rw [rowContrib_cons_pos r rest iid qty hb]
      simp [hb]
    · have hb : (r.1.ingredient_id == iid) = false := by simp [hr]
      have h2 : neededAt (addRow qty ns r) iid = none := by
        unfold neededAt
        rw [lookupNeed_addRow_ne qty ns r iid (fun hc => hr hc.symm)]
        exact h
      rw [ih _ h2, rowContrib_cons_neg r rest iid qty hb]
      simp only [hb, Bool.false_or]

theorem goodEntry_bumpNeed (st : DBState) (ns : Needs) (iid : Nat) (tot : ℚ)
    (h : ∀ e ∈ ns, goodEntry st e) : ∀ e ∈ bumpNeed ns iid tot, goodEntry st e := by
  induction ns with
  | nil => simp [bumpNeed]
  | cons e0 rest ih =>
    intro e he
    simp only [bumpNeed] at he
    by_cases hb : (e0.1 == iid) = true
    · rw [if_pos hb] at he
      rcases List.mem_cons.mp he with h1 | h1
      · obtain ⟨si, hsi, hn, hu, hs⟩ := h e0 (List.mem_cons_self _ _)
        subst h1
        exact ⟨si, hsi, hn, hu, hs⟩
      · exact h e (List.mem_cons_of_mem _ h1)
    · rw [if_neg hb] at he
      rcases List.mem_cons.mp he with h1 | h1
      · subst h1
        exact h e (List.mem_cons_self _ _)
      · exact ih (fun x hx => h x (List.mem_cons_of_mem _ hx)) e h1

theorem goodEntry_addRow (st : DBState) (qty : ℚ) (ns : Needs)
    (r : DishIngredient × Ingredient) (hr : findIng st r.1.ingredient_id = some r.2)
    (h : ∀ e ∈ ns, goodEntry st e) : ∀ e ∈ addRow qty ns r, goodEntry st e := by
  intro e he
  unfold addRow at he
  cases hk : hasKey ns r.1.ingredient_id with
  | true =>
    rw [hk] at he
    simp only [if_true] at he
    exact goodEntry_bumpNeed st ns _ _ h e he
  | false =>
    rw [hk] at he
    simp only [Bool.false_eq_true, if_false] at he
    rcases List.mem_append.mp he with h1 | h1
    · exact h e h1
    · rcases List.mem_singleton.mp h1 with h2
      subst h2
      exact ⟨r.2, hr, rfl, rfl, rfl⟩

theorem goodEntry_foldl (st : DBState) (rows : List (DishIngredient × Ingredient)) (qty : ℚ)
    (ns : Needs) (hrows : ∀ r ∈ rows, findIng st r.1.ingredient_id = some r.2)
    (h : ∀ e ∈ ns, goodEntry st e) : ∀ e ∈ rows.foldl (addRow qty) ns, goodEntry st e := by
  induction rows generalizing ns with
  | nil => exact h
  | cons r rest ih =>
    simp only [List.foldl_cons]
    exact ih _ (fun x hx => hrows x (List.mem_cons_of_mem _ hx))
      (goodEntry_addRow st qty ns r (hrows r (List.mem_cons_self _ _)) h)

theorem keys_bumpNeed (ns : Needs) (iid : Nat) (tot : ℚ) :
    (bumpNeed ns iid tot).map (fun e => e.1) = ns.map (fun e => e.1) := by
  induction ns with
  | nil => rfl
  | cons e rest ih =>
    simp only [bumpNeed]
    by_cases hb : (e.1 == iid) = true
    · rw [if_pos hb]; rfl
    · rw [if_neg hb]
      simp [ih]

theorem keys_addRow_nodup (qty : ℚ) (ns : Needs) (r : DishIngredient × Ingredient)
    (h : (ns.map (fun e => e.1)).Nodup) :
    ((addRow qty ns r).map (fun e => e.1)).Nodup := by
  unfold addRow
  cases hk : hasKey ns r.1.ingredient_id with
  | true =>
    simp only [if_true, keys_bumpNeed]
    exact h
  | false =>
    simp only [Bool.false_eq_true, if_false, List.map_append, List.map_cons, List.map_nil]
    rw [List.nodup_append]
    refine ⟨h, List.nodup_singleton _, ?_⟩
    intro a ha hb
    rcases List.mem_singleton.mp hb with rfl
    have : hasKey ns r.1.ingredient_id = true := by
      unfold hasKey
      rw [List.any_eq_true]
      obtain ⟨e, he, hf⟩ := List.mem_map.mp ha
      exact ⟨e, he, by simp [hf]⟩
    rw [hk] at this
    cases this

theorem keys_foldl_nodup (rows : List (DishIngredient × Ingredient)) (qty : ℚ) (ns : Needs)
    (h : (ns.map (fun e => e.1)).Nodup) :
    ((rows.foldl (addRow qty) ns).map (fun e => e.1)).Nodup := by
  induction rows generalizing ns with
  | nil => exact h
  | cons r rest ih =>
    simp only [List.foldl_cons]
    exact ih _ (keys_addRow_nodup qty ns r h)

theorem recipeRows_findIng (st : DBState) (d : Nat) :
    ∀ r ∈ recipeRows st d, findIng st r.1.ingredient_id = some r.2 := by
  intro r hr
  unfold recipeRows at hr
  rw [List.mem_filterMap] at hr
  obtain ⟨di, hdi, hmap⟩ := hr
  by_cases hm : (di.menu_id == d) = true
  · rw [if_pos hm] at hmap
    cases hsi : findIng st di.ingredient_id with
    | none => rw [hsi] at hmap; cases hmap
    | some si =>
      rw [hsi] at hmap
      simp only [Option.map_some'] at hmap
      injection hmap with hmap
      rw [← hmap]
      exact hsi
  · rw [if_neg hm] at hmap; cases hmap

theorem neededAt_buildNeeds_some (st : DBState) (items : List BasketLine) (ns : Needs)
    (iid : Nat) (x : ℚ) (res : Needs) (h : neededAt ns iid = some x)
    (hb : buildNeeds st ns items = .ok res) :
    neededAt res iid = some (x + aggregatedNeedSpec st items iid) := by
  induction items generalizing ns x with
  | nil =>
    simp only [buildNeeds, Except.ok.injEq] at hb
    subst hb
    simpa [aggregatedNeedSpec] using h
  | cons l rest ih =>
    simp only [buildNeeds] at hb
    by_cases hemp : (recipeRows st l.dish_id).isEmpty = true
    · rw [if_pos hemp] at hb; cases hb
    · rw [if_neg hemp] at hb
      have h2 := neededAt_foldl_some (recipeRows st l.dish_id) (l.qty : ℚ) ns iid x h
      rw [ih _ _ h2 hb]
      congr 1
      simp only [aggregatedNeedSpec, rowContrib, List.map_cons, List.sum_cons]
      ring

theorem neededAt_buildNeeds_none (st : DBState) (items : List BasketLine) (ns : Needs)
    (iid : Nat) (res : Needs) (h : neededAt ns iid = none)
    (hb : buildNeeds st ns items = .ok res) :
    neededAt res iid =
      if referencesIngredient st items iid then some (aggregatedNeedSpec st items iid)
      else none := by
  induction items generalizing ns with
  | nil =>
    simp only [buildNeeds, Except.ok.injEq] at hb
    subst hb
    simpa [referencesIngredient] using h
  | cons l rest ih =>
    simp only [buildNeeds] at hb
    by_cases hemp : (recipeRows st l.dish_id).isEmpty = true
    · rw [if_pos hemp] at hb; cases hb
    · rw [if_neg hemp] at hb
      have hstep := neededAt_foldl_none (recipeRows st l.dish_id) (l.qty : ℚ) ns iid h
      by_cases hany : ((recipeRows st l.dish_id).any (fun r => r.1.ingredient_id == iid)) = true
      · rw [if_pos hany] at hstep
        rw [neededAt_buildNeeds_some st rest _ iid _ res hstep hb]
        have href : referencesIngredient st (l :: rest) iid = true := by
          unfold referencesIngredient
          simp only [List.any_cons, hany, Bool.true_or]
        rw [href]
        simp only [if_true, aggregatedNeedSpec, rowContrib, List.map_cons, List.sum_cons]
      · rw [if_neg hany] at hstep
        rw [ih _ hstep hb]
        have href : referencesIngredient st (l :: rest) iid = referencesIngredient st rest iid := by
          unfold referencesIngredient
          simp only [List.any_cons, Bool.not_eq_true] at hany ⊢
          rw [hany]
          simp
        rw [href]
        have hagg : aggregatedNeedSpec st (l :: rest) iid = aggregatedNeedSpec st rest iid := by
          simp only [aggregatedNeedSpec, List.map_cons, List.sum_cons]
          have h0 : rowContrib (recipeRows st l.dish_id) iid (l.qty : ℚ) = 0 :=
            rowContrib_of_not_any _ _ _ (Bool.not_eq_true _ ▸ hany)
          simp only [rowContrib] at h0
          rw [h0, zero_add]
        rw [hagg]

theorem findShort_none_iff (ns : Needs) :
    findShort ns = none ↔ ∀ e ∈ ns, ¬ (e.2.stock < e.2.needed) := by
  simp [findShort, List.find?_eq_none]

theorem findShort_some_inv (ns : Needs) (e : Nat × NeedInfo) (h : findShort ns = some e) :
    e ∈ ns ∧ e.2.stock < e.2.needed := by
  refine ⟨List.mem_of_find?_eq_some h, ?_⟩
  have h2 := List.find?_some h
  simpa using h2

theorem lookupNeed_mem (ns : Needs) (iid : Nat) (v : NeedInfo)
    (h : lookupNeed ns iid = some v) : (iid, v) ∈ ns := by
  unfold lookupNeed at h
  cases hf : ns.find? (fun e => e.1 == iid) with
  | none => rw [hf] at h; cases h
  | some e0 =>
    rw [hf] at h
    simp only [Option.map_some'] at h
    have h1 := List.mem_of_find?_eq_some hf
    have h2 := List.find?_some hf
    simp only [beq_iff_eq] at h2
    injection h with h3
    have he : e0 = (iid, v) := by
      cases e0
      simp only [Prod.mk.injEq]
      exact ⟨h2, h3⟩
    exact he ▸ h1

theorem lookupNeed_of_mem_nodup (ns : Needs) (h : (ns.map (fun e => e.1)).Nodup)
    (e : Nat × NeedInfo) (he : e ∈ ns) : lookupNeed ns e.1 = some e.2 := by
  induction ns with
  | nil => cases he
  | cons e0 rest ih =>
    rcases List.mem_cons.mp he with h1 | h1
    · subst h1
      simp [lookupNeed, List.find?_cons]
    · have hne : (e0.1 == e.1) = false := by
        simp only [beq_eq_false_iff_ne]
        intro hc
        have hmem : e.1 ∈ rest.map (fun x => x.1) := List.mem_map.mpr ⟨e, h1, rfl⟩
        exact (List.nodup_cons.mp h).1 (by simpa [hc] using hmem)
      simp only [lookupNeed, List.find?_cons, hne, cond_false]
      have := ih (List.nodup_cons.mp h).2 h1
      simpa [lookupNeed] using this

theorem find_ing_by_id (l : List Ingredient) (si : Ingredient)
    (hids : (l.map (fun x => x.id)).Nodup) (h : si ∈ l) :
    l.find? (fun x => x.id == si.id) = some si := by
  induction l with
  | nil => cases h
  | cons b rest ih =>
    rcases List.mem_cons.mp h with h1 | h1
    · subst h1
      simp [List.find?_cons]
    · have hb : (b.id == si.id) = false := by
        simp only [beq_eq_false_iff_ne]
        intro hc
        have hmem : si.id ∈ rest.map (fun x => x.id) := List.mem_map.mpr ⟨si, h1, rfl⟩
        exact (List.nodup_cons.mp hids).1 (by simpa [hc] using hmem)
      simp only [List.find?_cons, hb, cond_false]
      exact ih (List.nodup_cons.mp hids).2 h1

theorem findIng_self (st : DBState) (si : Ingredient)
    (hids : (st.stock_inventory.map (fun x => x.id)).Nodup)
    (h : si ∈ st.stock_inventory) : findIng st si.id = some si :=
  find_ing_by_id st.stock_inventory si hids h

theorem aggregatedNeedSpec_of_not_referenced (st : DBState) (items : List BasketLine)
    (iid : Nat) (h : referencesIngredient st items iid = false) :
    aggregatedNeedSpec st items iid = 0 := by
  induction items with
  | nil => rfl
  | cons l rest ih =>
    simp only [referencesIngredient, List.any_cons, Bool.or_eq_false_iff] at h
    simp only [aggregatedNeedSpec, List.map_cons, List.sum_cons]
    have h0 := rowContrib_of_not_any (recipeRows st l.dish_id) iid (l.qty : ℚ) h.1
    simp only [rowContrib] at h0
    rw [h0, zero_add]
    have := ih (by unfold referencesIngredient; exact h.2)
    simpa [aggregatedNeedSpec] using this

theorem goodEntry_buildNeeds (st : DBState) (items : List BasketLine) (ns res : Needs)
    (h : ∀ e ∈ ns, goodEntry st e) (hb : buildNeeds st ns items = .ok res) :
    ∀ e ∈ res, goodEntry st e := by
  induction items generalizing ns with
  | nil =>
    simp only [buildNeeds, Except.ok.injEq] at hb
    exact hb ▸ h
  | cons l rest ih =>
    simp only [buildNeeds] at hb
    by_cases hemp : (recipeRows st l.dish_id).isEmpty = true
    · rw [if_pos hemp] at hb; cases hb
    · rw [if_neg hemp] at hb
      exact ih _ (goodEntry_foldl st _ _ ns (recipeRows_findIng st l.dish_id) h) hb

theorem keys_buildNeeds_nodup (st : DBState) (items : List BasketLine) (ns res : Needs)
    (h : (ns.map (fun e => e.1)).Nodup) (hb : buildNeeds st ns items = .ok res) :
    (res.map (fun e => e.1)).Nodup := by
  induction items generalizing ns with
  | nil =>
    simp only [buildNeeds, Except.ok.injEq] at hb
    exact hb ▸ h
  | cons l rest ih =>
    simp only [buildNeeds] at hb
    by_cases hemp : (recipeRows st l.dish_id).isEmpty = true
    · rw [if_pos hemp] at hb; cases hb
    · rw [if_neg hemp] at hb
      exact ih _ (keys_foldl_nodup _ _ ns h) hb

theorem validateItems_isOk (st : DBState) (items : List BasketLine) (acc : ℚ)
    (hq : ∀ l ∈ items, 1 ≤ l.qty) (hd : ∀ l ∈ items, (findDish st l.dish_id).isSome) :
    ∃ s, validateItems st acc items = .ok s := by
  induction items generalizing acc with
  | nil => exact ⟨acc, rfl⟩
  | cons l rest ih =>
    have h1 : ¬ (l.qty ≤ 0) := by
      have := hq l (List.mem_cons_self _ _)
      omega
    cases hd2 : findDish st l.dish_id with
    | none =>
      have := hd l (List.mem_cons_self _ _)
      rw [hd2] at this
      cases this
    | some d =>
      obtain ⟨s, hs⟩ := ih (acc + d.dish_price * (l.qty : ℚ))
        (fun x hx => hq x (List.mem_cons_of_mem _ hx))
        (fun x hx => hd x (List.mem_cons_of_mem _ hx))
      exact ⟨s, by simp only [validateItems, h1, if_false, hd2]; exact hs⟩

theorem buildNeeds_isOk (st : DBState) (items : List BasketLine) (ns : Needs)
    (hr : ∀ l ∈ items, (recipeRows st l.dish_id).isEmpty = false) :
    ∃ res, buildNeeds st ns items = .ok res := by
  induction items generalizing ns with
  | nil => exact ⟨ns, rfl⟩
  | cons l rest ih =>
    have h1 : ¬ ((recipeRows st l.dish_id).isEmpty = true) := by
      rw [hr l (List.mem_cons_self _ _)]
      simp

    obtain ⟨res, hres⟩ := ih ((recipeRows st l.dish_id).foldl (addRow (l.qty : ℚ)) ns)
      (fun x hx => hr x (List.mem_cons_of_mem _ hx))
    exact ⟨res, by simp only [buildNeeds, if_neg h1]; exact hres⟩

theorem applyNeeds_eq_map (ns : Needs) (inv : List Ingredient)
    (h : (ns.map (fun e => e.1)).Nodup) :
    applyNeeds ns inv = inv.map (fun si =>
      match lookupNeed ns si.id with
      | some v => { si with quantity_in_stock := v.stock - v.needed }
      | none => si) := by
  induction ns generalizing inv with
  | nil =>
    simp [applyNeeds, lookupNeed, List.find?_nil]
  | cons e rest ih =>
    have hnd := List.nodup_cons.mp h
    simp only [applyNeeds, List.foldl_cons]
    have ihr := ih (inv.map (fun si =>
      if si.id == e.1 then { si with quantity_in_stock := e.2.stock - e.2.needed } else si))
      hnd.2
    simp only [applyNeeds] at ihr
    rw [ihr, List.map_map]
    apply List.map_congr_left
    intro si _
    by_cases hid : si.id = e.1
    · have hb : (si.id == e.1) = true := by simp [hid]
      have hb2 : (e.1 == si.id) = true := by simp [hid]
      have hlr : lookupNeed rest si.id = none := by
        cases hl : lookupNeed rest si.id with
        | none => rfl
        | some v =>
          have hmem := lookupNeed_mem rest si.id v hl
          have hmem2 : si.id ∈ rest.map (fun x => x.1) :=
            List.mem_map.mpr ⟨(si.id, v), hmem, rfl⟩
          exact absurd (by simpa [hid] using hmem2) hnd.1
      simp only [Function.comp, hb, if_true, lookupNeed, List.find?_cons, hb2, cond_true]
      simp only [lookupNeed] at hlr
      simp [hlr]
    · have hb : (si.id == e.1) = false := by simp [hid]
      have hb2 : (e.1 == si.id) = false := by
        simp only [beq_eq_false_iff_ne]
        exact fun hc => hid hc.symm
      simp only [Function.comp, hb, Bool.false_eq_true, if_false, lookupNeed,
        List.find?_cons, hb2, cond_false]

theorem referencesIngredient_iff (st : DBState) (items : List BasketLine) (iid : Nat) :
    referencesIngredient st items iid = true ↔
      ∃ l ∈ items, ∃ r ∈ recipeRows st l.dish_id, r.1.ingredient_id = iid := by
  simp [referencesIngredient, List.any_eq_true]

theorem applyNeeds_stock (st : DBState) (items : List BasketLine) (ns : Needs)
    (hids : (st.stock_inventory.map (fun x => x.id)).Nodup)
    (hb : buildNeeds st [] items = .ok ns) :
    applyNeeds ns st.stock_inventory = st.stock_inventory.map (fun si =>
      { si with quantity_in_stock := si.quantity_in_stock - aggregatedNeedSpec st items si.id }) := by
  have hkeys : (ns.map (fun e => e.1)).Nodup :=
    keys_buildNeeds_nodup st items [] ns (by simp) hb
  rw [applyNeeds_eq_map ns _ hkeys]
  apply List.map_congr_left
  intro si hsi
  have hchar := neededAt_buildNeeds_none st items [] si.id ns (by simp [neededAt, lookupNeed]) hb
  cases hl : lookupNeed ns si.id with
  | some v =>
    dsimp only
    have hne : neededAt ns si.id = some v.needed := by simp [neededAt, hl]
    rw [hne] at hchar
    by_cases href : referencesIngredient st items si.id = true
    · rw [if_pos href] at hchar
      injection hchar with hv
      have hgood := goodEntry_buildNeeds st items [] ns (by simp) hb (si.id, v)
        (lookupNeed_mem ns si.id v hl)
      obtain ⟨si', hfind, -, -, hs⟩ := hgood
      rw [findIng_self st si hids hsi] at hfind
      injection hfind with hfind
      rw [hs, ← hfind, hv]
    · rw [if_neg href] at hchar
      cases hchar
  | none =>
    dsimp only
    have hne : neededAt ns si.id = none := by simp [neededAt, hl]
    rw [hne] at hchar
    by_cases href : referencesIngredient st items si.id = true
    · rw [if_pos href] at hchar
      cases hchar
    · have h0 := aggregatedNeedSpec_of_not_referenced st items si.id
        (Bool.not_eq_true _ ▸ href)
      rw [h0]
      simp

theorem create_order_ok_state (st : DBState) (items : List BasketLine) (st' : DBState)
    (oid : Nat) (hids : (st.stock_inventory.map (fun x => x.id)).Nodup)
    (h : create_order st items = (st', .ok oid)) :
    st'.orders = st.orders ++
      [⟨oid, st.now, round2 (rawSubtotal st items), vatRate,
        round2 (rawSubtotal st items * vatRate),
        round2 (rawSubtotal st items + round2 (rawSubtotal st items * vatRate))⟩] ∧
    st'.order_items = st.order_items ++ items.map (fun l =>
      ({ order_id := oid, dish_id := l.dish_id, quantity := l.qty,
         line_price := round2 ((((findDish st l.dish_id).map (fun d => d.dish_price)).getD 0) * (l.qty : ℚ)) } : OrderItem)) ∧
    st'.stock_inventory = st.stock_inventory.map (fun si =>
      { si with quantity_in_stock := si.quantity_in_stock - aggregatedNeedSpec st items si.id }) := by
  obtain ⟨s, ns, hv, hb, hf, hc⟩ := create_order_ok_inv st items st' oid h
  obtain ⟨hs, -⟩ := validateItems_ok_inv st items 0 s hv
  have hs' : s = rawSubtotal st items := by rw [hs]; ring
  subst hs'
  have h1 : st' = (commitOrder st items (rawSubtotal st items) ns).1 := by rw [hc]
  have h2 : oid = (commitOrder st items (rawSubtotal st items) ns).2 := by rw [hc]
  refine ⟨?_, ?_, ?_⟩
  · rw [h1, h2]; simp [commitOrder]
  · rw [h1, h2]; simp [commitOrder]
  · rw [h1]
    have h3 : (commitOrder st items (rawSubtotal st items) ns).1.stock_inventory =
        applyNeeds ns st.stock_inventory := by simp [commitOrder]
    rw [h3]
    exact applyNeeds_stock st items ns hids hb

theorem validateItems_error_shape (st : DBState) (acc : ℚ) (items : List BasketLine)
    (e : OrderErr) (h : validateItems st acc items = .error e) :
    e = .invalidQuantity ∨ ∃ i, e = .dishNotFound i := by
  induction items generalizing acc with
  | nil => simp [validateItems] at h
  | cons l rest ih =>
    simp only [validateItems] at h
    by_cases hq : l.qty ≤ 0
    · rw [if_pos hq] at h
      injection h with h1
      exact Or.inl h1.symm
    · rw [if_neg hq] at h
      cases hd : findDish st l.dish_id with
      | none =>
        rw [hd] at h
        injection h with h1
        exact Or.inr ⟨l.dish_id, h1.symm⟩
      | some d =>
        rw [hd] at h
        exact ih _ h

theorem buildNeeds_error_shape (st : DBState) (ns : Needs) (items : List BasketLine)
    (e : OrderErr) (h : buildNeeds st ns items = .error e) :
    ∃ nm, e = .emptyRecipe nm := by
  induction items generalizing ns with
  | nil => simp [buildNeeds] at h
  | cons l rest ih =>
    simp only [buildNeeds] at h
    by_cases hemp : (recipeRows st l.dish_id).isEmpty = true
    · rw [if_pos hemp] at h
      injection h with h1
      exact ⟨_, h1.symm⟩
    · rw [if_neg hemp] at h
      exact ih _ h

theorem create_order_insufficient_inv (st : DBState) (items : List BasketLine)
    (st' : DBState) (n : String) (nd av : ℚ) (u : String)
    (h : create_order st items = (st', .error (.insufficientStock n nd av u))) :
    ∃ ns e, buildNeeds st [] items = .ok ns ∧ findShort ns = some e ∧
      n = e.2.name ∧ nd = e.2.needed ∧ av = e.2.stock ∧ u = e.2.unit := by
  unfold create_order at h
  cases hv : validateItems st 0 items with
  | error e1 =>
    rw [hv] at h
    injection h with h1 h2
    injection h2 with h3
    rcases validateItems_error_shape st 0 items e1 hv with h4 | ⟨i, h4⟩ <;>
      (rw [h4] at h3; cases h3)
  | ok s =>
    rw [hv] at h; dsimp only at h
    cases hb : buildNeeds st [] items with
    | error e2 =>
      rw [hb] at h
      injection h with h1 h2
      injection h2 with h3
      obtain ⟨nm, h4⟩ := buildNeeds_error_shape st [] items e2 hb
      rw [h4] at h3
      cases h3
    | ok ns =>
      rw [hb] at h; dsimp only at h
      cases hf : findShort ns with
      | some e =>
        rw [hf] at h
        injection h with h1 h2
        injection h2 with h3
        injection h3 with a1 a2 a3 a4
        exact ⟨ns, e, rfl, hf, a1.symm, a2.symm, a3.symm, a4.symm⟩
      | none =>
        rw [hf] at h; dsimp only at h
        injection h with h1 h2
        cases h2

theorem agg_le_stock (st : DBState) (items : List BasketLine) (ns : Needs)
    (hids : (st.stock_inventory.map (fun x => x.id)).Nodup)
    (hpos : ∀ si ∈ st.stock_inventory, 0 ≤ si.quantity_in_stock)
    (hb : buildNeeds st [] items = .ok ns) (hf : findShort ns = none) :
    ∀ si ∈ st.stock_inventory, aggregatedNeedSpec st items si.id ≤ si.quantity_in_stock := by
  intro si hsi
  have hchar := neededAt_buildNeeds_none st items [] si.id ns (by simp [neededAt, lookupNeed]) hb
  by_cases href : referencesIngredient st items si.id = true
  · rw [if_pos href] at hchar
    cases hl : lookupNeed ns si.id with
    | none => rw [neededAt, hl] at hchar; cases hchar
    | some v =>
      have hv : v.needed = aggregatedNeedSpec st items si.id := by
        rw [neededAt, hl] at hchar
        simpa using hchar
      have hmem := lookupNeed_mem ns si.id v hl
      have hnshort := (findShort_none_iff ns).mp hf _ hmem
      have hgood := goodEntry_buildNeeds st items [] ns (by simp) hb (si.id, v) hmem
      obtain ⟨si', hfind, -, -, hs⟩ := hgood
      rw [findIng_self st si hids hsi] at hfind
      injection hfind with hfind
      have : v.needed ≤ v.stock := not_lt.mp hnshort
      rw [hv, hs, ← hfind] at this
      exact this
  · rw [aggregatedNeedSpec_of_not_referenced st items si.id (Bool.not_eq_true _ ▸ href)]
    exact hpos si hsi

/-- C1: `create_order` is all-or-nothing.  Every failure outcome returns
the database exactly as it was (no order row, no order-item rows, no
stock change persists), and on success the order row, one item row per
basket line, and every stock decrement are committed together: the
orders table grows by exactly the new order row, the item table by the
basket's rows, and each ingredient's stock becomes its old stock minus
its aggregated need (zero for ingredients not in the basket's recipes).
A mid-commit exception is covered by the transaction semantics baked
into the model: the `with conn:` block rolls back, so the only reachable
outcomes are the two below. -/
theorem create_order_all_or_nothing (st : DBState) (items : List BasketLine)
    (hids : (st.stock_inventory.map (fun x => x.id)).Nodup) :
    (∀ st' e, create_order st items = (st', .error e) → st' = st) ∧
    (∀ st' oid, create_order st items = (st', .ok oid) →
      st'.orders = st.orders ++
        [⟨oid, st.now, round2 (rawSubtotal st items), vatRate,
          round2 (rawSubtotal st items * vatRate),
          round2 (rawSubtotal st items + round2 (rawSubtotal st items * vatRate))⟩] ∧
      st'.order_items = st.order_items ++ items.map (fun l =>
        ({ order_id := oid, dish_id := l.dish_id, quantity := l.qty,
           line_price := round2 ((((findDish st l.dish_id).map (fun d => d.dish_price)).getD 0) * (l.qty : ℚ)) } : OrderItem)) ∧
      st'.stock_inventory = st.stock_inventory.map (fun si =>
        { si with quantity_in_stock := si.quantity_in_stock - aggregatedNeedSpec st items si.id })) :=
  ⟨fun st' e h => create_order_error_inv st items st' e h,
   fun st' oid h => create_order_ok_state st items st' oid hids h⟩

/-- Witness for `create_order_all_or_nothing` at `stPlate` with the
one-line basket `[(1, 1)]`. -/
theorem create_order_all_or_nothing_witness :
    ((stPlate.stock_inventory.map (fun x => x.id)).Nodup) ∧
    ((∀ st' e, create_order stPlate [⟨1, 1⟩] = (st', .error e) → st' = stPlate) ∧
    (∀ st' oid, create_order stPlate [⟨1, 1⟩] = (st', .ok oid) →
      st'.orders = stPlate.orders ++
        [⟨oid, stPlate.now, round2 (rawSubtotal stPlate [⟨1, 1⟩]), vatRate,
          round2 (rawSubtotal stPlate [⟨1, 1⟩] * vatRate),
          round2 (rawSubtotal stPlate [⟨1, 1⟩] + round2 (rawSubtotal stPlate [⟨1, 1⟩] * vatRate))⟩] ∧
      st'.order_items = stPlate.order_items ++ ([⟨1, 1⟩] : List BasketLine).map (fun l =>
        ({ order_id := oid, dish_id := l.dish_id, quantity := l.qty,
           line_price := round2 ((((findDish stPlate l.dish_id).map (fun d => d.dish_price)).getD 0) * (l.qty : ℚ)) } : OrderItem)) ∧
      st'.stock_inventory = stPlate.stock_inventory.map (fun si =>
        { si with quantity_in_stock := si.quantity_in_stock - aggregatedNeedSpec stPlate [⟨1, 1⟩] si.id }))) :=
  ⟨by decide, create_order_all_or_nothing stPlate [⟨1, 1⟩] (by decide)⟩

/-- C10: if every stock quantity is non-negative before a `create_order`
call, it stays non-negative afterwards whatever the outcome; on success
each ingredient's new stock is exactly its old stock minus its
aggregated need (so a stock equal to the need is driven to exactly
zero), and an insufficient-stock failure only ever reports a strictly
short ingredient — equality passes the check. -/
theorem create_order_stock_invariants (st : DBState) (items : List BasketLine)
    (hids : (st.stock_inventory.map (fun x => x.id)).Nodup)
    (hpos : ∀ si ∈ st.stock_inventory, 0 ≤ si.quantity_in_stock) :
    (∀ si ∈ (create_order st items).1.stock_inventory, 0 ≤ si.quantity_in_stock) ∧
    (∀ st' oid, create_order st items = (st', .ok oid) →
      ∀ si ∈ st.stock_inventory,
        ({ si with quantity_in_stock := si.quantity_in_stock - aggregatedNeedSpec st items si.id } : Ingredient) ∈ st'.stock_inventory ∧
        (si.quantity_in_stock = aggregatedNeedSpec st items si.id →
          ({ si with quantity_in_stock := 0 } : Ingredient) ∈ st'.stock_inventory)) ∧
    (∀ st' n nd av u, create_order st items = (st', .error (.insufficientStock n nd av u)) →
      av < nd) := by
  refine ⟨?_, ?_, ?_⟩
  · rcases hco : create_order st items with ⟨st2, r⟩
    dsimp only
    cases r with
    | error e =>
      have h1 := create_order_error_inv st items st2 e hco
      subst h1
      exact hpos
    | ok oid =>
      obtain ⟨-, -, hstock⟩ := create_order_ok_state st items st2 oid hids hco
      rw [hstock]
      intro si' hsi'
      obtain ⟨si, hsi, rfl⟩ := List.mem_map.mp hsi'
      obtain ⟨s, ns, hv, hb, hf, hc⟩ := create_order_ok_inv st items st2 oid hco
      have hle := agg_le_stock st items ns hids hpos hb hf si hsi
      simpa using sub_nonneg.mpr hle
  · intro st' oid h si hsi
    obtain ⟨-, -, hstock⟩ := create_order_ok_state st items st' oid hids h
    constructor
    · rw [hstock]
      exact List.mem_map.mpr ⟨si, hsi, rfl⟩
    · intro heq
      rw [hstock]
      refine List.mem_map.mpr ⟨si, hsi, ?_⟩
      rw [← heq]
      simp
  · intro st' n nd av u h
    obtain ⟨ns, e, hb, hf, -, hnd, hav, -⟩ := create_order_insufficient_inv st items st' n nd av u h
    obtain ⟨-, hshort⟩ := findShort_some_inv ns e hf
    rw [hnd, hav]
    exact hshort

/-- Witness for `create_order_stock_invariants` at `stPlate` with the
one-line basket `[(1, 1)]`. -/
theorem create_order_stock_invariants_witness :
    ((stPlate.stock_inventory.map (fun x => x.id)).Nodup) ∧
    (∀ si ∈ stPlate.stock_inventory, 0 ≤ si.quantity_in_stock) ∧
    ((∀ si ∈ (create_order stPlate [⟨1, 1⟩]).1.stock_inventory, 0 ≤ si.quantity_in_stock) ∧
    (∀ st' oid, create_order stPlate [⟨1, 1⟩] = (st', .ok oid) →
      ∀ si ∈ stPlate.stock_inventory,
        ({ si with quantity_in_stock := si.quantity_in_stock - aggregatedNeedSpec stPlate [⟨1, 1⟩] si.id } : Ingredient) ∈ st'.stock_inventory ∧
        (si.quantity_in_stock = aggregatedNeedSpec stPlate [⟨1, 1⟩] si.id →
          ({ si with quantity_in_stock := 0 } : Ingredient) ∈ st'.stock_inventory)) ∧
    (∀ st' n nd av u, create_order stPlate [⟨1, 1⟩] = (st', .error (.insufficientStock n nd av u)) →
      av < nd)) := by
  have hpos : ∀ si ∈ stPlate.stock_inventory, 0 ≤ si.quantity_in_stock := by
    norm_num [stPlate]
  exact ⟨by decide, hpos, create_order_stock_invariants stPlate [⟨1, 1⟩] (by decide) hpos⟩

/-- C2 (amended): for every basket whose dishes all exist, have non-empty
recipes, and whose line quantities are all at least 1, `create_order`
fails with an insufficient-stock error iff some recipe-referenced
ingredient's current stock is strictly below its aggregated need — the
sum over all basket lines of recipe `quantity_needed × line quantity`,
summed across dishes and lines — and the reported error carries that
ingredient's name, its aggregated need and its available stock. -/
theorem create_order_insufficiency_iff (st : DBState) (items : List BasketLine)
    (hq : ∀ l ∈ items, 1 ≤ l.qty)
    (hd : ∀ l ∈ items, (findDish st l.dish_id).isSome)
    (hr : ∀ l ∈ items, (recipeRows st l.dish_id).isEmpty = false) :
    ((∃ n nd av u, (create_order st items).2 = .error (.insufficientStock n nd av u)) ↔
      (∃ l ∈ items, ∃ r ∈ recipeRows st l.dish_id,
        r.2.quantity_in_stock < aggregatedNeedSpec st items r.1.ingredient_id)) ∧
    (∀ n nd av u, (create_order st items).2 = .error (.insufficientStock n nd av u) →
      ∃ iid si, findIng st iid = some si ∧ n = si.ingredient_name ∧
        av = si.quantity_in_stock ∧ u = si.unit ∧
        nd = aggregatedNeedSpec st items iid ∧ av < nd) := by
  obtain ⟨s, hv⟩ := validateItems_isOk st items 0 hq hd
  obtain ⟨ns, hb⟩ := buildNeeds_isOk st items [] hr
  have hkeys : (ns.map (fun e => e.1)).Nodup :=
    keys_buildNeeds_nodup st items [] ns (by simp) hb
  cases hf : findShort ns with
  | some e =>
    have hres : (create_order st items).2 =
        .error (.insufficientStock e.2.name e.2.needed e.2.stock e.2.unit) := by
      unfold create_order
      rw [hv]; dsimp only; rw [hb]; dsimp only; rw [hf]
    obtain ⟨hmem, hshort⟩ := findShort_some_inv ns e hf
    have hlk := lookupNeed_of_mem_nodup ns hkeys e hmem
    have hne : neededAt ns e.1 = some e.2.needed := by simp [neededAt, hlk]
    have hchar := neededAt_buildNeeds_none st items [] e.1 ns (by simp [neededAt, lookupNeed]) hb
    rw [hne] at hchar
    by_cases href : referencesIngredient st items e.1 = true
    · rw [if_pos href] at hchar
      injection hchar with hneed
      have hgood := goodEntry_buildNeeds st items [] ns (by simp) hb e hmem
      obtain ⟨si, hfind, hn, hu, hsk⟩ := hgood
      obtain ⟨l, hl, r, hrr, hriid⟩ := (referencesIngredient_iff st items e.1).mp href
      have hrfind := recipeRows_findIng st l.dish_id r hrr
      rw [hriid, hfind] at hrfind
      injection hrfind with hrsi
      constructor
      · constructor
        · intro _
          refine ⟨l, hl, r, hrr, ?_⟩
          rw [hriid, ← hrsi, ← hsk, ← hneed]
          exact hshort
        · intro _
          exact ⟨e.2.name, e.2.needed, e.2.stock, e.2.unit, hres⟩
      · intro n nd av u hresx
        rw [hres] at hresx
        injection hresx with hpayload
        injection hpayload with a1 a2 a3 a4
        refine ⟨e.1, si, hfind, ?_, ?_, ?_, ?_, ?_⟩
        · rw [← a1, hn]
        · rw [← a3, hsk]
        · rw [← a4, hu]
        · rw [← a2, hneed]
        · rw [← a3, ← a2]
          exact hshort
    · rw [if_neg href] at hchar
      cases hchar
  | none =>
    have hres : (create_order st items).2 = .ok (commitOrder st items s ns).2 := by
      unfold create_order
      rw [hv]; dsimp only; rw [hb]; dsimp only; rw [hf]
    constructor
    · constructor
      · rintro ⟨n, nd, av, u, hcontra⟩
        rw [hres] at hcontra
        cases hcontra
      · rintro ⟨l, hl, r, hrr, hshort⟩
        exfalso
        have href : referencesIngredient st items r.1.ingredient_id = true :=
          (referencesIngredient_iff st items r.1.ingredient_id).mpr ⟨l, hl, r, hrr, rfl⟩
        have hchar := neededAt_buildNeeds_none st items [] r.1.ingredient_id ns
          (by simp [neededAt, lookupNeed]) hb
        rw [if_pos href] at hchar
        cases hlk : lookupNeed ns r.1.ingredient_id with
        | none => rw [neededAt, hlk] at hchar; cases hchar
        | some v =>
          have hneed : v.needed = aggregatedNeedSpec st items r.1.ingredient_id := by
            rw [neededAt, hlk] at hchar
            simpa using hchar
          have hmem := lookupNeed_mem ns r.1.ingredient_id v hlk
          have hnshort := (findShort_none_iff ns).mp hf _ hmem
          have hgood := goodEntry_buildNeeds st items [] ns (by simp) hb _ hmem
          obtain ⟨si, hfind, -, -, hsk⟩ := hgood
          have hrfind := recipeRows_findIng st l.dish_id r hrr
          rw [hfind] at hrfind
          injection hrfind with hrsi
          apply hnshort
          show v.stock < v.needed
          rw [hsk, hrsi, hneed]
          exact hshort
    · intro n nd av u hcontra
      rw [hres] at hcontra
      cases hcontra

/-- Witness for `create_order_insufficiency_iff` at `stShort` (stock 3,
need 5) with the basket `[(1, 1)]`. -/
theorem create_order_insufficiency_iff_witness :
    (∀ l ∈ ([⟨1, 1⟩] : List BasketLine), 1 ≤ l.qty) ∧
    (∀ l ∈ ([⟨1, 1⟩] : List BasketLine), (findDish stShort l.dish_id).isSome) ∧
    (∀ l ∈ ([⟨1, 1⟩] : List BasketLine), (recipeRows stShort l.dish_id).isEmpty = false) ∧
    (((∃ n nd av u, (create_order stShort [⟨1, 1⟩]).2 = .error (.insufficientStock n nd av u)) ↔
      (∃ l ∈ ([⟨1, 1⟩] : List BasketLine), ∃ r ∈ recipeRows stShort l.dish_id,
        r.2.quantity_in_stock < aggregatedNeedSpec stShort [⟨1, 1⟩] r.1.ingredient_id)) ∧
    (∀ n nd av u, (create_order stShort [⟨1, 1⟩]).2 = .error (.insufficientStock n nd av u) →
      ∃ iid si, findIng stShort iid = some si ∧ n = si.ingredient_name ∧
        av = si.quantity_in_stock ∧ u = si.unit ∧
        nd = aggregatedNeedSpec stShort [⟨1, 1⟩] iid ∧ av < nd)) :=
  ⟨by decide, by decide, by decide,
   create_order_insufficiency_iff stShort [⟨1, 1⟩] (by decide) (by decide) (by decide)⟩

/-- C2 counterexample: with the basket `[(1, 2), (1, 0)]` against
`stShort` (stock 3, need 5 per unit), the aggregated need computed by the
claim's formula is 10 > 3, yet `create_order` fails with the quantity
error, not with an insufficient-stock error naming the ingredient: the
`qty <= 0` check fires before any aggregation, so the claimed "if and
only if" fails for baskets containing a non-positive line. -/
theorem create_order_insufficiency_iff_counterexample :
    (create_order stShort [⟨1, 2⟩, ⟨1, 0⟩]).2 = .error .invalidQuantity ∧
    aggregatedNeedSpec stShort [⟨1, 2⟩, ⟨1, 0⟩] 1 = 10 ∧
    (stShort.stock_inventory.map (fun si => si.quantity_in_stock)) = [3] ∧
    (3 : ℚ) < 10 ∧
    ¬ (∃ n nd av u, (create_order stShort [⟨1, 2⟩, ⟨1, 0⟩]).2 =
        .error (.insufficientStock n nd av u)) := by
  have h1 : (create_order stShort [⟨1, 2⟩, ⟨1, 0⟩]).2 = .error .invalidQuantity := by
    norm_num [create_order, validateItems, findDish, stShort, List.find?]
  refine ⟨h1, ?_, by norm_num [stShort], by norm_num, ?_⟩
  · norm_num [aggregatedNeedSpec, recipeRows, rowContrib, findIng, stShort,
      List.filterMap, List.find?, List.filter]
  · rintro ⟨n, nd, av, u, hco⟩
    rw [h1] at hco
    cases hco

/-! ### Dish creation: `ensure_ingredient_exists` and `dishLoop` -/

theorem find?_isPrefix {α : Type} (l1 l2 : List α) (p : α → Bool) (x : α)
    (h : l1 <+: l2) (hf : l1.find? p = some x) : l2.find? p = some x := by
  obtain ⟨t, rfl⟩ := h
  rw [List.find?_append, hf]
  rfl

theorem find_ing_by_name (l : List Ingredient) (si : Ingredient)
    (hnames : (l.map (fun x => x.ingredient_name)).Nodup) (h : si ∈ l) :
    l.find? (fun x => x.ingredient_name == si.ingredient_name) = some si := by
  induction l with
  | nil => cases h
  | cons b rest ih =>
    rcases List.mem_cons.mp h with h1 | h1
    · subst h1
      simp [List.find?_cons]
    · have hb : (b.ingredient_name == si.ingredient_name) = false := by
        simp only [beq_eq_false_iff_ne]
        intro hc
        have hmem : si.ingredient_name ∈ rest.map (fun x => x.ingredient_name) :=
          List.mem_map.mpr ⟨si, h1, rfl⟩
        exact (List.nodup_cons.mp hnames).1 (by simpa [hc] using hmem)
      simp only [List.find?_cons, hb, cond_false]
      exact ih (List.nodup_cons.mp hnames).2 h1

theorem ensure_error_of_conflict (work : DBState) (name unitGiven : String) (si : Ingredient)
    (hfind : work.stock_inventory.find? (fun x => x.ingredient_name == name) = some si)
    (hu : si.unit ≠ unitGiven) :
    ensure_ingredient_exists work name unitGiven = .error si.unit := by
  unfold ensure_ingredient_exists
  rw [hfind]
  dsimp only
  rw [if_pos hu]

theorem ensure_ok_facts (work : DBState) (name unitGiven : String) (p : DBState × Nat)
    (h : ensure_ingredient_exists work name unitGiven = .ok p) :
    work.stock_inventory <+: p.1.stock_inventory ∧
    (∃ row ∈ p.1.stock_inventory, row.ingredient_name = name) ∧
    (∀ row ∈ p.1.stock_inventory, row ∈ work.stock_inventory ∨
      (row.quantity_in_stock = 0 ∧ row.ingredient_name = name ∧ row.unit = unitGiven)) := by
  unfold ensure_ingredient_exists at h
  cases hfind : work.stock_inventory.find? (fun x => x.ingredient_name == name) with
  | some row =>
    rw [hfind] at h
    dsimp only at h
    by_cases hu : row.unit ≠ unitGiven
    · rw [if_pos hu] at h; cases h
    · rw [if_neg hu] at h
      injection h with h1
      have hrn : row.ingredient_name = name := by
        have := List.find?_some hfind
        simpa using this
      have hrm : row ∈ work.stock_inventory := List.mem_of_find?_eq_some hfind
      rw [← h1]
      exact ⟨List.prefix_refl _, ⟨row, hrm, hrn⟩, fun r hr => Or.inl hr⟩
  | none =>
    rw [hfind] at h
    dsimp only at h
    injection h with h1
    rw [← h1]
    refine ⟨⟨_, rfl⟩, ?_, ?_⟩
    · exact ⟨⟨work.next_ingredient_id, name, 0, unitGiven⟩, by simp, rfl⟩
    · intro r hr
      rcases List.mem_append.mp hr with h2 | h2
      · exact Or.inl h2
      · rcases List.mem_singleton.mp h2 with rfl
        exact Or.inr ⟨rfl, rfl, rfl⟩

theorem dishLoop_error_state (st0 : DBState) (dishId : Nat) (specs : List IngSpec) :
    ∀ (work res : DBState) (e : DishErr),
      dishLoop st0 dishId work specs = (res, .error e) → res = st0 := by
  induction specs with
  | nil =>
    intro work res e h
    simp only [dishLoop, Prod.mk.injEq] at h
    cases h.2
  | cons spec rest ih =>
    intro work res e h
    simp only [dishLoop] at h
    cases hv : validate_unit spec.unit with
    | none => rw [hv] at h; injection h with h1 h2; exact h1.symm
    | some u0 =>
      rw [hv] at h; dsimp only at h
      by_cases hq : spec.qty_needed ≤ 0
      · rw [if_pos hq] at h; injection h with h1 h2; exact h1.symm
      · rw [if_neg hq] at h
        cases he : ensure_ingredient_exists work spec.name spec.unit with
        | error eu => rw [he] at h; injection h with h1 h2; exact h1.symm
        | ok p =>
          rw [he] at h; dsimp only at h
          exact ih _ _ _ h

theorem dishLoop_mismatch (st0 : DBState) (dishId : Nat) (specs : List IngSpec)
    (hnames : (st0.stock_inventory.map (fun x => x.ingredient_name)).Nodup) :
    ∀ (work : DBState), st0.stock_inventory <+: work.stock_inventory →
    (∀ spec ∈ specs, (validate_unit spec.unit).isSome) →
    (∀ spec ∈ specs, 0 < spec.qty_needed) →
    (∃ spec ∈ specs, ∃ si ∈ st0.stock_inventory,
      si.ingredient_name = spec.name ∧ si.unit ≠ spec.unit) →
    ∃ n eu gu, dishLoop st0 dishId work specs = (st0, .error (.unitMismatch n eu gu)) := by
  induction specs with
  | nil =>
    intro work _ _ _ hconf
    obtain ⟨spec, hspec, -⟩ := hconf
    cases hspec
  | cons spec rest ih =>
    intro work hpre hunits hqty hconf
    have hu := hunits spec (List.mem_cons_self _ _)
    cases hv : validate_unit spec.unit with
    | none => rw [hv] at hu; cases hu
    | some u0 =>
      have hq : ¬ (spec.qty_needed ≤ 0) := not_le.mpr (hqty spec (List.mem_cons_self _ _))
      cases he : ensure_ingredient_exists work spec.name spec.unit with
      | error eu =>
        refine ⟨spec.name, eu, spec.unit, ?_⟩
        simp only [dishLoop, hv]
        rw [if_neg hq, he]
      | ok p =>
        have hconf' : ∃ s0 ∈ rest, ∃ si ∈ st0.stock_inventory,
            si.ingredient_name = s0.name ∧ si.unit ≠ s0.unit := by
          rcases hconf with ⟨s0, hs0, si, hsi, hname, hunit⟩
          rcases List.mem_cons.mp hs0 with h1 | h1
          · exfalso
            subst h1
            have hfind0 : st0.stock_inventory.find?
                (fun x => x.ingredient_name == si.ingredient_name) = some si :=
              find_ing_by_name st0.stock_inventory si hnames hsi
            have hfind : work.stock_inventory.find?
                (fun x => x.ingredient_name == s0.name) = some si := by
              rw [← hname]
              exact find?_isPrefix _ _ _ si hpre hfind0
            have hcontr := ensure_error_of_conflict work s0.name s0.unit si hfind hunit
            rw [he] at hcontr
            cases hcontr
          · exact ⟨s0, h1, si, hsi, hname, hunit⟩
        obtain ⟨n, eu, gu, hloop⟩ := ih
          { p.1 with dish_ingredients := p.1.dish_ingredients ++ [⟨dishId, p.2, spec.qty_needed⟩] }
          (hpre.trans (ensure_ok_facts work spec.name spec.unit p he).1)
          (fun x hx => hunits x (List.mem_cons_of_mem _ hx))
          (fun x hx => hqty x (List.mem_cons_of_mem _ hx))
          hconf'
        refine ⟨n, eu, gu, ?_⟩
        simp only [dishLoop, hv]
        rw [if_neg hq, he]
        exact hloop

theorem dishLoop_ok_facts (st0 : DBState) (dishId : Nat) (specs : List IngSpec) :
    ∀ (work res : DBState), dishLoop st0 dishId work specs = (res, .ok ()) →
      work.stock_inventory <+: res.stock_inventory ∧
      (∀ spec ∈ specs, ∃ row ∈ res.stock_inventory, row.ingredient_name = spec.name) ∧
      (∀ row ∈ res.stock_inventory, row ∈ work.stock_inventory ∨
        (row.quantity_in_stock = 0 ∧
          ∃ spec ∈ specs, spec.name = row.ingredient_name ∧ spec.unit = row.unit)) := by
  induction specs with
  | nil =>
    intro work res h
    simp only [dishLoop, Prod.mk.injEq] at h
    rw [← h.1]
    exact ⟨List.prefix_refl _, by simp, fun row hr => Or.inl hr⟩
  | cons spec rest ih =>
    intro work res h
    simp only [dishLoop] at h
    cases hv : validate_unit spec.unit with
    | none => rw [hv] at h; injection h with h1 h2; cases h2
    | some u0 =>
      rw [hv] at h; dsimp only at h
      by_cases hq : spec.qty_needed ≤ 0
      · rw [if_pos hq] at h; injection h with h1 h2; cases h2
      · rw [if_neg hq] at h
        cases he : ensure_ingredient_exists work spec.name spec.unit with
        | error eu => rw [he] at h; injection h with h1 h2; cases h2
        | ok p =>
          rw [he] at h; dsimp only at h
          obtain ⟨hpre, hhead, hprov⟩ := ensure_ok_facts work spec.name spec.unit p he
          obtain ⟨hpre2, hnames2, hprov2⟩ := ih _ _ h
          refine ⟨hpre.trans hpre2, ?_, ?_⟩
          · intro x hx
            rcases List.mem_cons.mp hx with h1 | h1
            · subst h1
              obtain ⟨row, hrow, hrn⟩ := hhead
              exact ⟨row, hpre2.subset hrow, hrn⟩
            · exact hnames2 x h1
          · intro row hrow
            rcases hprov2 row hrow with h1 | ⟨h0, s1, hs1, hn1, hu1⟩
            · rcases hprov row h1 with h2 | ⟨h0, hn, hu⟩
              · exact Or.inl h2
              · exact Or.inr ⟨h0, spec, List.mem_cons_self _ _, hn.symm, hu.symm⟩
            · exact Or.inr ⟨h0, s1, List.mem_cons_of_mem _ hs1, hn1, hu1⟩

/-- C6 (amended): for a dish-creation request with positive price, a dish
name not already on the menu, allowed units and positive quantities
throughout the recipe, referencing an existing ingredient name under a
different unit makes `create_dish` fail with a unit-mismatch error and
return the catalog exactly unchanged (the transaction rolls back the
dish row, the recipe links and any auto-vivified ingredients); and on
success every recipe name not previously present has been auto-vivified
at zero stock with a unit given for it in the recipe. -/
theorem create_dish_unit_mismatch (st : DBState) (name : String) (price : ℚ)
    (ings : List IngSpec)
    (hnames : (st.stock_inventory.map (fun x => x.ingredient_name)).Nodup)
    (hprice : 0 < price)
    (hfresh : ∀ d ∈ st.menu_inventory, d.dish_name ≠ name)
    (hunits : ∀ spec ∈ ings, (validate_unit spec.unit).isSome)
    (hqty : ∀ spec ∈ ings, 0 < spec.qty_needed) :
    ((∃ spec ∈ ings, ∃ si ∈ st.stock_inventory,
        si.ingredient_name = spec.name ∧ si.unit ≠ spec.unit) →
      ∃ n eu gu, create_dish st name price ings = (st, .error (.unitMismatch n eu gu))) ∧
    (∀ st', create_dish st name price ings = (st', .ok ()) →
      ∀ spec ∈ ings, (∀ si ∈ st.stock_inventory, si.ingredient_name ≠ spec.name) →
        ∃ si' ∈ st'.stock_inventory, si'.ingredient_name = spec.name ∧
          si'.quantity_in_stock = 0 ∧
          ∃ spec' ∈ ings, spec'.name = spec.name ∧ spec'.unit = si'.unit) := by
  have hp : ¬ (price ≤ 0) := not_le.mpr hprice
  have hany : (st.menu_inventory.any (fun d => d.dish_name == name)) = false := by
    rw [List.any_eq_false]
    intro d hd
    simp only [beq_iff_eq]
    exact hfresh d hd
  have hred : create_dish st name price ings =
      dishLoop st st.next_dish_id
        { st with
            menu_inventory := st.menu_inventory ++ [⟨st.next_dish_id, name, price⟩],
            next_dish_id := st.next_dish_id + 1 }
        ings := by
    unfold create_dish
    rw [if_neg hp, hany]
    rfl
  constructor
  · intro hconf
    rw [hred]
    exact dishLoop_mismatch st st.next_dish_id ings hnames _ (List.prefix_refl _)
      hunits hqty hconf
  · intro st' hok spec hspec hnew
    rw [hred] at hok
    obtain ⟨hpre, hnames2, hprov⟩ := dishLoop_ok_facts st st.next_dish_id ings _ st' hok
    obtain ⟨row, hrow, hrn⟩ := hnames2 spec hspec
    rcases hprov row hrow with h1 | ⟨h0, s1, hs1, hn1, hu1⟩
    · exact absurd hrn (hnew row h1)
    · exact ⟨row, hrow, hrn, h0, s1, hs1, by rw [hn1, hrn], hu1⟩

/-- Witness for `create_dish_unit_mismatch`: `stFlour` has Flour in
grams; creating a dish whose recipe wants Flour in millilitres. -/
theorem create_dish_unit_mismatch_witness :
    ((stFlour.stock_inventory.map (fun x => x.ingredient_name)).Nodup) ∧
    (0 : ℚ) < 5 ∧
    (∀ d ∈ stFlour.menu_inventory, d.dish_name ≠ "Cake") ∧
    (∀ spec ∈ ([⟨"Flour", 1, "ml"⟩] : List IngSpec), (validate_unit spec.unit).isSome) ∧
    (∀ spec ∈ ([⟨"Flour", 1, "ml"⟩] : List IngSpec), 0 < spec.qty_needed) ∧
    (((∃ spec ∈ ([⟨"Flour", 1, "ml"⟩] : List IngSpec), ∃ si ∈ stFlour.stock_inventory,
        si.ingredient_name = spec.name ∧ si.unit ≠ spec.unit) →
      ∃ n eu gu, create_dish stFlour "Cake" 5 [⟨"Flour", 1, "ml"⟩] =
        (stFlour, .error (.unitMismatch n eu gu))) ∧
    (∀ st', create_dish stFlour "Cake" 5 [⟨"Flour", 1, "ml"⟩] = (st', .ok ()) →
      ∀ spec ∈ ([⟨"Flour", 1, "ml"⟩] : List IngSpec),
        (∀ si ∈ stFlour.stock_inventory, si.ingredient_name ≠ spec.name) →
        ∃ si' ∈ st'.stock_inventory, si'.ingredient_name = spec.name ∧
          si'.quantity_in_stock = 0 ∧
          ∃ spec' ∈ ([⟨"Flour", 1, "ml"⟩] : List IngSpec),
            spec'.name = spec.name ∧ spec'.unit = si'.unit)) := by
  refine ⟨by decide, by norm_num, by decide, by decide, ?_, ?_⟩
  · intro spec hspec
    rcases List.mem_singleton.mp hspec with rfl
    norm_num
  · exact create_dish_unit_mismatch stFlour "Cake" 5 [⟨"Flour", 1, "ml"⟩]
      (by decide) (by norm_num) (by decide) (by decide)
      (by
        intro spec hspec
        rcases List.mem_singleton.mp hspec with rfl
        norm_num)

/-- C6 counterexample: the claim quantifies over *every* dish-creation
request whose recipe references an existing name under a different unit,
but when the dish name itself already exists the code fails with "Dish
already exists" (the UNIQUE violation is caught first), not with a
unit-mismatch error.  The catalog is still unchanged. -/
theorem create_dish_mismatch_counterexample :
    create_dish stCakeFlour "Cake" 5 [⟨"Flour", 1, "ml"⟩] =
      (stCakeFlour, .error .alreadyExists) ∧
    (∃ spec ∈ ([⟨"Flour", 1, "ml"⟩] : List IngSpec), ∃ si ∈ stCakeFlour.stock_inventory,
      si.ingredient_name = spec.name ∧ si.unit ≠ spec.unit) ∧
    (∀ n eu gu,
      (Except.error DishErr.alreadyExists : Except DishErr Unit) ≠
        .error (.unitMismatch n eu gu)) := by
  refine ⟨?_, by decide, ?_⟩
  · norm_num [create_dish, stCakeFlour]
  · intro n eu gu h
    injection h with h2
    cases h2

/-- C5: three public operations can terminate with an *uncaught* Python
exception, so the claim that every operation returns an explicit outcome
is false on the code.  (1) `update_ingredient_by_id` has no try/except:
renaming Salt onto the existing name Pepper violates the UNIQUE
constraint and `sqlite3.IntegrityError` escapes.  (2) `delete_dish` on a
dish referenced by `order_items` (no ON DELETE action) raises an
uncaught FK `IntegrityError`.  (3) `update_dish` calls `conn.close()`
inside its `with conn:` block on every early return, so the context
manager's commit raises `sqlite3.ProgrammingError` — here triggered by a
mid-recipe validation error (invalid unit "liters").  In all three cases
the transaction is rolled back, but the caller sees an exception, not a
`(success, message)` pair. -/
theorem public_ops_raise_uncaught :
    (update_ingredient_by_id stTwoIngs 1 "Pepper" 5 "g").2 = .exn .integrityError ∧
    (delete_dish stDishOrdered 1).2 = .exn .integrityError ∧
    (update_dish stCakeFlour 1 "Brownie" 2 [⟨"Sugar", 1, "liters"⟩]).2 =
      .exn .programmingError := by
  have h1 : validate_unit "g" = some "g" := by decide
  have h2 : validate_unit "liters" = none := by decide
  refine ⟨?_, ?_, ?_⟩
  · norm_num [update_ingredient_by_id, h1, stTwoIngs]
  · norm_num [delete_dish, stDishOrdered]
  · norm_num [update_dish, updDishLoop, h2, stCakeFlour]

/-! ### Low-stock alerts -/

theorem lowStockLoop_mem (rows : List (Ingredient × ℚ)) :
    ∀ (seen : List (String × String)) (n u : String),
      (∃ a ∈ lowStockLoop rows seen, a.ingredient = n ∧ a.unit = u) ↔
      ((n, u) ∉ seen ∧ ∃ p ∈ rows, p.1.ingredient_name = n ∧ p.1.unit = u ∧
        p.1.quantity_in_stock < 3 * p.2) := by
  induction rows with
  | nil =>
    intro seen n u
    simp [lowStockLoop]
  | cons p rest ih =>
    intro seen n u
    obtain ⟨si, qn⟩ := p
    simp only [lowStockLoop]
    by_cases htr : si.quantity_in_stock < 3 * qn
    · rw [if_pos htr]
      by_cases hseen : (si.ingredient_name, si.unit) ∈ seen
      · rw [if_pos hseen, ih seen n u]
        constructor
        · rintro ⟨hns, q, hq, hfacts⟩
          exact ⟨hns, q, List.mem_cons_of_mem _ hq, hfacts⟩
        · rintro ⟨hns, q, hq, hn, hu2, hlt⟩
          rcases List.mem_cons.mp hq with rfl | hq2
          · exfalso
            apply hns
            have hn' : si.ingredient_name = n := hn
            have hu' : si.unit = u := hu2
            rw [← hn', ← hu']
            exact hseen
          · exact ⟨hns, q, hq2, hn, hu2, hlt⟩
      · rw [if_neg hseen]
        constructor
        · rintro ⟨a, ha, han, hau⟩
          rcases List.mem_cons.mp ha with rfl | ha2
          · refine ⟨by rw [← han, ← hau]; exact hseen, (si, qn), List.mem_cons_self _ _, han, hau, htr⟩
          · obtain ⟨hns, q, hq, hfacts⟩ :=
              (ih ((si.ingredient_name, si.unit) :: seen) n u).mp ⟨a, ha2, han, hau⟩
            exact ⟨fun hc => hns (List.mem_cons_of_mem _ hc), q,
              List.mem_cons_of_mem _ hq, hfacts⟩
        · rintro ⟨hns, q, hq, hn, hu2, hlt⟩
          rcases List.mem_cons.mp hq with rfl | hq2
          · exact ⟨_, List.mem_cons_self _ _, hn, hu2⟩
          · by_cases hkey : (n, u) = (si.ingredient_name, si.unit)
            · refine ⟨_, List.mem_cons_self _ _, ?_, ?_⟩
              · injection hkey with hk1 hk2
                exact hk1.symm
              · injection hkey with hk1 hk2
                exact hk2.symm
            · obtain ⟨a, ha, hfacts⟩ :=
                (ih ((si.ingredient_name, si.unit) :: seen) n u).mpr
                  ⟨by
                    intro hc
                    rcases List.mem_cons.mp hc with hc1 | hc2
                    · exact hkey hc1
                    · exact hns hc2,
                   q, hq2, hn, hu2, hlt⟩
              exact ⟨a, List.mem_cons_of_mem _ ha, hfacts⟩
    · rw [if_neg htr, ih seen n u]
      constructor
      · rintro ⟨hns, q, hq, hfacts⟩
        exact ⟨hns, q, List.mem_cons_of_mem _ hq, hfacts⟩
      · rintro ⟨hns, q, hq, hn, hu2, hlt⟩
        rcases List.mem_cons.mp hq with rfl | hq2
        · exact absurd hlt htr
        · exact ⟨hns, q, hq2, hn, hu2, hlt⟩

theorem lowStockLoop_keys_nodup (rows : List (Ingredient × ℚ)) :
    ∀ (seen : List (String × String)),
      ((lowStockLoop rows seen).map (fun a => (a.ingredient, a.unit))).Nodup ∧
      (∀ k ∈ (lowStockLoop rows seen).map (fun a => (a.ingredient, a.unit)), k ∉ seen) := by
  induction rows with
  | nil =>
    intro seen
    simp [lowStockLoop]
  | cons p rest ih =>
    intro seen
    obtain ⟨si, qn⟩ := p
    simp only [lowStockLoop]
    by_cases htr : si.quantity_in_stock < 3 * qn
    · rw [if_pos htr]
      by_cases hseen : (si.ingredient_name, si.unit) ∈ seen
      · rw [if_pos hseen]
        exact ih seen
      · rw [if_neg hseen]
        obtain ⟨hnd, hnotin⟩ := ih ((si.ingredient_name, si.unit) :: seen)
        constructor
        · rw [List.map_cons, List.nodup_cons]
          refine ⟨?_, hnd⟩
          intro hmem
          exact (hnotin _ hmem) (List.mem_cons_self _ _)
        · intro k hk
          rcases List.mem_cons.mp hk with rfl | hk2
          · exact hseen
          · exact fun hc => (hnotin k hk2) (List.mem_cons_of_mem _ hc)
    · rw [if_neg htr]
      exact ih seen

theorem mem_alertRows (st : DBState) (p : Ingredient × ℚ) :
    p ∈ alertRows st ↔ ∃ di ∈ st.dish_ingredients,
      findIng st di.ingredient_id = some p.1 ∧ di.quantity_needed = p.2 := by
  simp only [alertRows, List.mem_filterMap]
  constructor
  · rintro ⟨di, hdi, hmap⟩
    cases hf : findIng st di.ingredient_id with
    | none => rw [hf] at hmap; cases hmap
    | some si =>
      rw [hf] at hmap
      simp only [Option.map_some'] at hmap
      injection hmap with hmap
      refine ⟨di, hdi, ?_, ?_⟩
      · rw [hf, ← hmap]
      · rw [← hmap]
  · rintro ⟨di, hdi, hfind, hq⟩
    refine ⟨di, hdi, ?_⟩
    rw [hfind]
    simp only [Option.map_some']
    rw [hq]

/-- C7: `compute_low_stock_alerts` flags an ingredient iff its current
stock is strictly below `3 × quantity_needed` for at least one recipe
line referencing it (stock exactly equal to the threshold is not
flagged, the comparison being strict), and each flagged ingredient
appears exactly once, deduplicated by (name, unit) — the alert-key list
has no duplicates.  The function only reads (the model's type
`DBState → List Alert` returns no state, mirroring a SELECT-only scan). -/
theorem compute_low_stock_alerts_spec (st : DBState) (n u : String) :
    (((compute_low_stock_alerts st).map (fun a => (a.ingredient, a.unit))).Nodup) ∧
    ((∃ a ∈ compute_low_stock_alerts st, a.ingredient = n ∧ a.unit = u) ↔
      (∃ di ∈ st.dish_ingredients, ∃ si, findIng st di.ingredient_id = some si ∧
        si.ingredient_name = n ∧ si.unit = u ∧
        si.quantity_in_stock < 3 * di.quantity_needed)) := by
  constructor
  · exact (lowStockLoop_keys_nodup (alertRows st) []).1
  · rw [compute_low_stock_alerts, lowStockLoop_mem (alertRows st) [] n u]
    simp only [List.not_mem_nil, not_false_iff, true_and]
    constructor
    · rintro ⟨p, hp, hn, hu2, hlt⟩
      obtain ⟨di, hdi, hfind, hq⟩ := (mem_alertRows st p).mp hp
      exact ⟨di, hdi, p.1, hfind, hn, hu2, by rw [hq]; exact hlt⟩
    · rintro ⟨di, hdi, si, hfind, hn, hu2, hlt⟩
      refine ⟨(si, di.quantity_needed), ?_, hn, hu2, hlt⟩
      exact (mem_alertRows st (si, di.quantity_needed)).mpr ⟨di, hdi, hfind, rfl⟩

/-! ### The query/filter layer -/

/-- C8: fetching ingredients, dishes or orders with no filters returns
the full stored set, and adding a numeric bound (any `op`) to
`fetch_ingredients` or `fetch_menu` only removes rows: the filtered
result is a subset both of the same query without the numeric bound and
of the full table. -/
theorem fetch_no_filter_full_and_bounds_monotone (st : DBState) (nm : Option String)
    (q p : ℚ) (opq opp : String) :
    fetch_ingredients st none none opq = st.stock_inventory ∧
    fetch_menu st none none opp = st.menu_inventory ∧
    (fetch_orders st none none none).map (fun ov => ov.order) = st.orders ∧
    (∀ x ∈ fetch_ingredients st nm (some q) opq, x ∈ fetch_ingredients st nm none opq) ∧
    (∀ x ∈ fetch_ingredients st nm (some q) opq, x ∈ st.stock_inventory) ∧
    (∀ x ∈ fetch_menu st nm (some p) opp, x ∈ fetch_menu st nm none opp) ∧
    (∀ x ∈ fetch_menu st nm (some p) opp, x ∈ st.menu_inventory) := by
  refine ⟨?_, ?_, ?_, ?_, ?_, ?_, ?_⟩
  · simp [fetch_ingredients]
  · simp [fetch_menu]
  · have hgen : ∀ (os : List Order),
        ((os.filterMap (fun o => some (⟨o, dateDisplay o.order_date,
          orderItemsView st o.id⟩ : OrderView))).map (fun ov => ov.order)) = os := by
      intro os
      induction os with
      | nil => rfl
      | cons o rest ih => simp [List.filterMap_cons, ih]
    simpa [fetch_orders] using hgen st.orders
  · intro x hx
    simp only [fetch_ingredients, List.mem_filter] at hx ⊢
    refine ⟨hx.1, ?_⟩
    have h2 := hx.2
    rw [Bool.and_eq_true] at h2
    rw [Bool.and_eq_true]
    exact ⟨h2.1, rfl⟩
  · intro x hx
    simp only [fetch_ingredients, List.mem_filter] at hx
    exact hx.1
  · intro x hx
    simp only [fetch_menu, List.mem_filter] at hx ⊢
    refine ⟨hx.1, ?_⟩
    have h2 := hx.2
    rw [Bool.and_eq_true] at h2
    rw [Bool.and_eq_true]
    exact ⟨h2.1, rfl⟩
  · intro x hx
    simp only [fetch_menu, List.mem_filter] at hx
    exact hx.1

/-! ### CSV export -/

theorem orderItemsView_eq (st : DBState) (oid : Nat)
    (hdish : ∀ oi ∈ st.order_items, (findDish st oi.dish_id).isSome) :
    orderItemsView st oid = (st.order_items.filter (fun oi => oi.order_id == oid)).map
      (fun oi => ⟨oi.quantity, oi.line_price,
        (((findDish st oi.dish_id).map (fun d => d.dish_name)).getD "")⟩) := by
  unfold orderItemsView
  have hgen : ∀ (l : List OrderItem), (∀ oi ∈ l, (findDish st oi.dish_id).isSome) →
      l.filterMap (fun oi =>
        if oi.order_id == oid then
          (findDish st oi.dish_id).map (fun d =>
            (⟨oi.quantity, oi.line_price, d.dish_name⟩ : ItemView))
        else none) =
      (l.filter (fun oi => oi.order_id == oid)).map
        (fun oi => (⟨oi.quantity, oi.line_price,
          (((findDish st oi.dish_id).map (fun d => d.dish_name)).getD "")⟩ : ItemView)) := by
    intro l hl
    induction l with
    | nil => rfl
    | cons oi rest ih =>
      have hhead := hl oi (List.mem_cons_self _ _)
      rw [List.filterMap_cons, List.filter_cons]
      cases hfd : findDish st oi.dish_id with
      | none => rw [hfd] at hhead; cases hhead
      | some d =>
        by_cases hm : (oi.order_id == oid) = true
        · simp only [hm, if_true, hfd, Option.map_some', Option.getD_some]
          rw [ih (fun x hx => hl x (List.mem_cons_of_mem _ hx))]
          simp [hfd]
        · simp only [hm, Bool.false_eq_true, if_false]
          exact ih (fun x hx => hl x (List.mem_cons_of_mem _ hx))
  exact hgen st.order_items hdish

/-- `export_orders_csv` unfolded: one block of rows per stored order, in
table order. -/
theorem export_orders_csv_eq (st : DBState) :
    export_orders_csv st = (st.orders.map (fun o =>
      (orderItemsView st o.id).map (fun it =>
        ({ order_id := o.id, order_date := dateDisplay o.order_date,
           dish_name := it.dish_name, qty := it.quantity, line_price := it.line_price,
           subtotal := o.subtotal, vat_rate := o.vat_rate,
           vat_amount := o.vat_amount, total := o.total } : CsvRow)))).flatten := by
  unfold export_orders_csv fetch_orders
  dsimp only
  simp only [Bool.and_self, List.filter_true]
  have hgen : ∀ (os : List Order),
      ((os.filterMap (fun o => some (⟨o, dateDisplay o.order_date,
        orderItemsView st o.id⟩ : OrderView))).map (fun ov =>
          ov.items.map (fun it =>
            ({ order_id := ov.order.id, order_date := ov.order_date_display,
               dish_name := it.dish_name, qty := it.quantity, line_price := it.line_price,
               subtotal := ov.order.subtotal, vat_rate := ov.order.vat_rate,
               vat_amount := ov.order.vat_amount, total := ov.order.total } : CsvRow)))) =
      os.map (fun o => (orderItemsView st o.id).map (fun it =>
        ({ order_id := o.id, order_date := dateDisplay o.order_date,
           dish_name := it.dish_name, qty := it.quantity, line_price := it.line_price,
           subtotal := o.subtotal, vat_rate := o.vat_rate,
           vat_amount := o.vat_amount, total := o.total } : CsvRow))) := by
    intro os
    induction os with
    | nil => rfl
    | cons o2 rest ih =>
      simp only [List.filterMap_cons, List.map_cons]
      rw [ih]
  rw [hgen st.orders]

theorem export_block_order_ids (st : DBState) (o : Order) (r : CsvRow)
    (hr : r ∈ (orderItemsView st o.id).map (fun it =>
      ({ order_id := o.id, order_date := dateDisplay o.order_date,
         dish_name := it.dish_name, qty := it.quantity, line_price := it.line_price,
         subtotal := o.subtotal, vat_rate := o.vat_rate,
         vat_amount := o.vat_amount, total := o.total } : CsvRow))) : r.order_id = o.id := by
  obtain ⟨it, -, rfl⟩ := List.mem_map.mp hr
  rfl

/-- C9: the CSV export has exactly one row per stored `order_items` row.
For every stored order, filtering the export to that order's id yields
precisely the stored item rows of that order, rendered with their own
dish name, quantity and line price and with the order-level subtotal,
vat rate, vat amount and total repeated identically across those sibling
rows; and the total number of exported rows equals the number of stored
order items.  (Requires the DB integrity the schema enforces: unique
order ids, every item's dish resolvable, every item's order present.) -/
theorem export_orders_csv_spec (st : DBState)
    (hids : (st.orders.map (fun o => o.id)).Nodup)
    (hdish : ∀ oi ∈ st.order_items, (findDish st oi.dish_id).isSome)
    (hord : ∀ oi ∈ st.order_items, st.orders.any (fun o => o.id == oi.order_id) = true) :
    (∀ o ∈ st.orders,
      (export_orders_csv st).filter (fun r => r.order_id == o.id) =
        (st.order_items.filter (fun oi => oi.order_id == o.id)).map (renderRow st o)) ∧
    (export_orders_csv st).length = st.order_items.length := by
  have hview : ∀ (o : Order),
      (orderItemsView st o.id).map (fun it =>
        ({ order_id := o.id, order_date := dateDisplay o.order_date,
           dish_name := it.dish_name, qty := it.quantity, line_price := it.line_price,
           subtotal := o.subtotal, vat_rate := o.vat_rate,
           vat_amount := o.vat_amount, total := o.total } : CsvRow)) =
      (st.order_items.filter (fun oi => oi.order_id == o.id)).map (renderRow st o) := by
    intro o
    rw [orderItemsView_eq st o.id hdish, List.map_map]
    rfl
  constructor
  · intro o ho
    rw [export_orders_csv_eq st]
    have hgen : ∀ (os : List Order), (os.map (fun x => x.id)).Nodup → o ∈ os →
        ((os.map (fun o2 => (orderItemsView st o2.id).map (fun it =>
          ({ order_id := o2.id, order_date := dateDisplay o2.order_date,
             dish_name := it.dish_name, qty := it.quantity, line_price := it.line_price,
             subtotal := o2.subtotal, vat_rate := o2.vat_rate,
             vat_amount := o2.vat_amount, total := o2.total } : CsvRow)))).flatten).filter
          (fun r => r.order_id == o.id) =
        (orderItemsView st o.id).map (fun it =>
          ({ order_id := o.id, order_date := dateDisplay o.order_date,
             dish_name := it.dish_name, qty := it.quantity, line_price := it.line_price,
             subtotal := o.subtotal, vat_rate := o.vat_rate,
             vat_amount := o.vat_amount, total := o.total } : CsvRow)) := by
      intro os hnd hmem
      induction os with
      | nil => cases hmem
      | cons o2 rest ih =>
        rw [List.map_cons, List.flatten_cons, List.filter_append]
        rcases List.mem_cons.mp hmem with rfl | hmem2
        · have hblock : (orderItemsView st o.id).map (fun it =>
              ({ order_id := o.id, order_date := dateDisplay o.order_date,
                 dish_name := it.dish_name, qty := it.quantity, line_price := it.line_price,
                 subtotal := o.subtotal, vat_rate := o.vat_rate,
                 vat_amount := o.vat_amount, total := o.total } : CsvRow)) =
              ((orderItemsView st o.id).map fun it =>
                ({ order_id := o.id, order_date := dateDisplay o.order_date,
                   dish_name := it.dish_name, qty := it.quantity, line_price := it.line_price,
                   subtotal := o.subtotal, vat_rate := o.vat_rate,
                   vat_amount := o.vat_amount, total := o.total } : CsvRow)) := rfl
          have hself : (((orderItemsView st o.id).map (fun it =>
              ({ order_id := o.id, order_date := dateDisplay o.order_date,
                 dish_name := it.dish_name, qty := it.quantity, line_price := it.line_price,
                 subtotal := o.subtotal, vat_rate := o.vat_rate,
                 vat_amount := o.vat_amount, total := o.total } : CsvRow))).filter
              (fun r => r.order_id == o.id)) =
              (orderItemsView st o.id).map (fun it =>
              ({ order_id := o.id, order_date := dateDisplay o.order_date,
                 dish_name := it.dish_name, qty := it.quantity, line_price := it.line_price,
                 subtotal := o.subtotal, vat_rate := o.vat_rate,
                 vat_amount := o.vat_amount, total := o.total } : CsvRow)) := by
            apply List.filter_eq_self.mpr
            intro r hr
            have := export_block_order_ids st o r hr
            simp [this]
          have hrest : ((rest.map (fun o3 => (orderItemsView st o3.id).map (fun it =>
              ({ order_id := o3.id, order_date := dateDisplay o3.order_date,
                 dish_name := it.dish_name, qty := it.quantity, line_price := it.line_price,
                 subtotal := o3.subtotal, vat_rate := o3.vat_rate,
                 vat_amount := o3.vat_amount, total := o3.total } : CsvRow)))).flatten).filter
              (fun r => r.order_id == o.id) = [] := by
            rw [List.filter_eq_nil_iff]
            intro r hrmem
            obtain ⟨block, hblock2, hrblock⟩ := List.mem_flatten.mp hrmem
            obtain ⟨o3, ho3, rfl⟩ := List.mem_map.mp hblock2
            have hro3 := export_block_order_ids st o3 r hrblock
            have hne : o3.id ≠ o.id := by
              intro hc
              have hmem3 : o.id ∈ rest.map (fun x => x.id) :=
                List.mem_map.mpr ⟨o3, ho3, hc⟩
              exact (List.nodup_cons.mp hnd).1 hmem3
            simp [hro3, hne]
          rw [hself, hrest, List.append_nil]
        · have hne : o2.id ≠ o.id := by
            intro hc
            have hmem3 : o2.id ∈ rest.map (fun x => x.id) :=
              List.mem_map.mpr ⟨o, hmem2, hc.symm ▸ rfl⟩
            exact (List.nodup_cons.mp hnd).1 hmem3
          have hblock0 : (((orderItemsView st o2.id).map (fun it =>
              ({ order_id := o2.id, order_date := dateDisplay o2.order_date,
                 dish_name := it.dish_name, qty := it.quantity, line_price := it.line_price,
                 subtotal := o2.subtotal, vat_rate := o2.vat_rate,
                 vat_amount := o2.vat_amount, total := o2.total } : CsvRow))).filter
              (fun r => r.order_id == o.id)) = [] := by
            rw [List.filter_eq_nil_iff]
            intro r hr
            have := export_block_order_ids st o2 r hr
            simp [this, hne]
          rw [hblock0, List.nil_append]
          exact ih (List.nodup_cons.mp hnd).2 hmem2
    rw [hgen st.orders hids ho, hview o]
  · rw [export_orders_csv_eq st]
    rw [List.length_flatten]
    have hlen : (st.orders.map (fun o => (orderItemsView st o.id).map (fun it =>
        ({ order_id := o.id, order_date := dateDisplay o.order_date,
           dish_name := it.dish_name, qty := it.quantity, line_price := it.line_price,
           subtotal := o.subtotal, vat_rate := o.vat_rate,
           vat_amount := o.vat_amount, total := o.total } : CsvRow)))).map List.length =
        st.orders.map (fun o => (st.order_items.filter (fun oi => oi.order_id == o.id)).length) := by
      rw [List.map_map]
      apply List.map_congr_left
      intro o _
      simp only [Function.comp]
      rw [hview o, List.length_map]
    rw [hlen]
    -- Σ over orders of per-order item counts = total item count
    have hsum : ∀ (its : List OrderItem), (∀ oi ∈ its, st.orders.any (fun o => o.id == oi.order_id) = true) →
        (st.orders.map (fun o => (its.filter (fun oi => oi.order_id == o.id)).length)).sum = its.length := by
      intro its hits
      induction its with
      | nil => simp
      | cons oi rest ih =>
        have hstep : ∀ o : Order, ((oi :: rest).filter (fun x => x.order_id == o.id)).length =
            ((if (oi.order_id == o.id) = true then 1 else 0) +
              (rest.filter (fun x => x.order_id == o.id)).length) := by
          intro o
          rw [List.filter_cons]
          by_cases hm : (oi.order_id == o.id) = true
          · simp [hm]
            omega
          · simp [hm]
        rw [List.map_congr_left (fun o _ => hstep o)]
        have hsplit : ∀ (os : List Order),
            (os.map (fun o => (if (oi.order_id == o.id) = true then 1 else 0) +
              (rest.filter (fun x => x.order_id == o.id)).length)).sum =
            (os.map (fun o => if (oi.order_id == o.id) = true then 1 else 0)).sum +
              (os.map (fun o => (rest.filter (fun x => x.order_id == o.id)).length)).sum := by
          intro os
          induction os with
          | nil => rfl
          | cons a t iht => simp only [List.map_cons, List.sum_cons, iht]; omega
        rw [hsplit]
        have hone : ∀ (os : List Order), (os.map (fun o => o.id)).Nodup →
            os.any (fun o => o.id == oi.order_id) = true →
            (os.map (fun o => if (oi.order_id == o.id) = true then 1 else 0)).sum = 1 := by
          intro os
          induction os with
          | nil => intro _ hmem; simp at hmem
          | cons a t iht =>
            intro hnd hmem
            by_cases hx : (oi.order_id == a.id) = true
            · have hzero : (t.map (fun o => if (oi.order_id == o.id) = true then 1 else 0)).sum = 0 := by
                apply List.sum_eq_zero
                intro v hv
                obtain ⟨o2, ho2, hval⟩ := List.mem_map.mp hv
                by_cases hm2 : (oi.order_id == o2.id) = true
                · exfalso
                  have h1 : oi.order_id = a.id := by simpa using hx
                  have h2 : oi.order_id = o2.id := by simpa using hm2
                  have hmem2 : a.id ∈ t.map (fun x => x.id) :=
                    List.mem_map.mpr ⟨o2, ho2, by rw [← h2, h1]⟩
                  exact (List.nodup_cons.mp hnd).1 hmem2
                · rw [← hval]
                  simp [hm2]
              rw [List.map_cons, List.sum_cons, if_pos hx, hzero]
            · simp only [List.any_cons, Bool.or_eq_true] at hmem
              have hmem2 : t.any (fun o => o.id == oi.order_id) = true := by
                rcases hmem with h1 | h1
                · exfalso
                  apply hx
                  have : a.id = oi.order_id := by simpa using h1
                  simp [this]
                · exact h1
              simp only [List.map_cons, List.sum_cons, hx, Bool.false_eq_true, if_false,
                Nat.zero_add]
              exact iht (List.nodup_cons.mp hnd).2 hmem2
        rw [hone st.orders hids (hits oi (List.mem_cons_self _ _))]
        rw [ih (fun x hx => hits x (List.mem_cons_of_mem _ hx))]
        simp [List.length_cons]
        omega
    exact hsum st.order_items hord

/-- Witness for `export_orders_csv_spec` at `stDishOrdered` (one order
with one item row). -/
theorem export_orders_csv_spec_witness :
    ((stDishOrdered.orders.map (fun o => o.id)).Nodup) ∧
    (∀ oi ∈ stDishOrdered.order_items, (findDish stDishOrdered oi.dish_id).isSome) ∧
    (∀ oi ∈ stDishOrdered.order_items,
      (stDishOrdered.orders.any (fun o => o.id == oi.order_id)) = true) ∧
    ((∀ o ∈ stDishOrdered.orders,
      (export_orders_csv stDishOrdered).filter (fun r => r.order_id == o.id) =
        (stDishOrdered.order_items.filter (fun oi => oi.order_id == o.id)).map
          (renderRow stDishOrdered o)) ∧
    (export_orders_csv stDishOrdered).length = stDishOrdered.order_items.length) :=
  ⟨by decide, by decide, by decide,
   export_orders_csv_spec stDishOrdered (by decide) (by decide) (by decide)⟩

end Resto
